import Mathlib

/-!
# Verification of the order-analysis engine (`analysis.py`)

A shallow embedding of the analysis engine of this repository: the period
deriver (`load_and_prepare_data`), the statistics summarizer
(`calculate_statistics`), the period aggregator (`analyze_by_period`), the
daily/weekday planning statistics, the category analyzer and the summary
portion of the report assembler (`export_analysis_to_excel`).

Conventions of the embedding:
* pandas timestamps are modelled at day resolution by a calendar date
  (`DateT`); time-of-day never influences the analysed behaviour.
* a pandas cell is a `Cell`: a datetime (`date`), a python `datetime.date`
  object as produced by `.dt.date` (`pydate`), a number (`num`, exact
  rationals in place of floats), a string, or one of the missing values
  `nat` (NaT), `nan` (NaN) and `null` (None).
* a DataFrame (`DF`) is a list of named columns; number of rows is the
  length of the first column.
* raising is modelled by `Except PyErr`; the file-path branches of
  `load_and_prepare_data` are I/O and are not modelled — the engine is
  always entered with an in-memory table, which is the branch embedded here.
* float formatting (`f"{x:.1f}"`) is modelled over exact rationals with
  round-half-to-even, the rounding used by python's float formatting.
-/

namespace OrdersAnalysis

attribute [local semireducible] Rat.add Rat.mul Rat.sub Rat.inv Rat.ofScientific

/-- A calendar date (proleptic Gregorian), modelling a pandas timestamp at
day resolution. -/
structure DateT where
  year : Int
  month : Nat
  day : Nat
deriving DecidableEq, Repr

/-- Days since 1970-01-01 of a civil date (Howard Hinnant's
`days_from_civil` algorithm, as used by date libraries). -/
def daysFromCivil (dt : DateT) : Int :=
  let y : Int := if dt.month ≤ 2 then dt.year - 1 else dt.year
  let era : Int := (if 0 ≤ y then y else y - 399) / 400
  let yoe : Nat := (y - era * 400).toNat
  let mp : Nat := if 2 < dt.month then dt.month - 3 else dt.month + 9
  let doy : Nat := (153 * mp + 2) / 5 + dt.day - 1
  let doe : Nat := yoe * 365 + yoe / 4 - yoe / 100 + doy
  era * 146097 + (doe : Int) - 719468

/-- Civil date from days since 1970-01-01 (Hinnant's `civil_from_days`). -/
def civilFromDays (z0 : Int) : DateT :=
  let z : Int := z0 + 719468
  let era : Int := (if 0 ≤ z then z else z - 146096) / 146097
  let doe : Nat := (z - era * 146097).toNat
  let yoe : Nat := (doe - doe / 1460 + doe / 36524 - doe / 146096) / 365
  let y : Int := (yoe : Int) + era * 400
  let doy : Nat := doe - (365 * yoe + yoe / 4 - yoe / 100)
  let mp : Nat := (5 * doy + 2) / 153
  let d : Nat := doy - (153 * mp + 2) / 5 + 1
  let m : Nat := if mp < 10 then mp + 3 else mp - 9
  ⟨if m ≤ 2 then y + 1 else y, m, d⟩

/-- Day of week with Sunday = 0 (as in C `tm_wday`); 1970-01-01 was a
Thursday. -/
def weekdaySun0 (dt : DateT) : Nat := ((daysFromCivil dt + 4) % 7).toNat

/-- Day of week with Monday = 0. -/
def weekdayMon0 (dt : DateT) : Nat := ((daysFromCivil dt + 3) % 7).toNat

/-- The canonical weekday names, Monday first, as produced by
`Series.dt.day_name()`. -/
def weekdaysOrder : List String :=
  ["Monday", "Tuesday", "Wednesday", "Thursday", "Friday", "Saturday", "Sunday"]

/-- `day_name()` of a date. -/
def dayName (dt : DateT) : String := (weekdaysOrder.getD (weekdayMon0 dt) "")

/-- Zero-based day of year. -/
def yday (dt : DateT) : Nat := (daysFromCivil dt - daysFromCivil ⟨dt.year, 1, 1⟩).toNat

/-- `%U` of C `strftime`: week of year, Sunday as first day, days before the
first Sunday are week 0. -/
def weekU (dt : DateT) : Nat := (yday dt + 7 - weekdaySun0 dt) / 7

/-- Left-pad a numeral string with zeroes. -/
def padZeroes (width : Nat) (s : String) : String :=
  if s.length < width then String.mk (List.replicate (width - s.length) '0') ++ s else s

/-- `%Y` formatting of a year (zero-padded to four digits). -/
def fmtYear (y : Int) : String :=
  if y < 0 then "-" ++ padZeroes 4 (toString y.natAbs) else padZeroes 4 (toString y.toNat)

/-- The `'%Y-W%U'` strftime label used for the `Year_Week` column. -/
def fmtYearWeek (dt : DateT) : String :=
  fmtYear dt.year ++ "-W" ++ padZeroes 2 (toString (weekU dt))

/-- The rendering of a pandas quarterly `Period`, e.g. `2024Q1`. -/
def quarterLabel (dt : DateT) : String :=
  toString dt.year ++ "Q" ++ toString ((dt.month - 1) / 3 + 1)

/-- Number of days in a month of a given year (Gregorian). -/
def monthLength (y : Int) (m : Nat) : Nat :=
  if m = 2 then (if y % 4 = 0 ∧ (y % 100 ≠ 0 ∨ y % 400 = 0) then 29 else 28)
  else if m = 4 ∨ m = 6 ∨ m = 9 ∨ m = 11 then 30 else 31

/-- Validity of a civil date. -/
def validDate (y : Int) (m d : Nat) : Bool :=
  decide (1 ≤ m) && decide (m ≤ 12) && decide (1 ≤ d) && decide (d ≤ monthLength y m)

/-- Value of a digit string (most significant digit first). -/
def digitsVal (l : List Char) : Nat := l.foldl (fun a c => a * 10 + (c.toNat - 48)) 0

/-- Split a character list on a separator character. -/
def splitOnChar (sep : Char) : List Char → List (List Char)
  | [] => [[]]
  | c :: rest =>
    match splitOnChar sep rest with
    | [] => [[c]]
    | h :: t => if c = sep then [] :: h :: t else (c :: h) :: t

/-- Parse a nonempty all-digit numeral. -/
def parseNatDigits (l : List Char) : Option Nat :=
  if l.length ≠ 0 ∧ l.all Char.isDigit then some (digitsVal l) else none

/-- Model of pandas' date parsing, restricted to ISO `YYYY-MM-DD` strings;
anything else is unparseable (and will be coerced to NaT). -/
def parseDate (s : String) : Option DateT :=
  match splitOnChar '-' s.toList with
  | [ys, ms, ds] =>
    match parseNatDigits ys, parseNatDigits ms, parseNatDigits ds with
    | some y, some m, some d =>
      if validDate (y : Int) m d then some ⟨(y : Int), m, d⟩ else none
    | _, _, _ => none
  | _ => none

/-- Model of `pd.to_numeric` string parsing: an optional sign, digits, and
an optional fractional part. -/
def parseNum (s : String) : Option ℚ :=
  let core (t : List Char) : Option ℚ :=
    match splitOnChar '.' t with
    | [a] => (parseNatDigits a).map (fun n => (n : ℚ))
    | [a, b] =>
      match parseNatDigits a, parseNatDigits b with
      | some n, some f => some ((n : ℚ) + (f : ℚ) / ((10 : ℚ) ^ b.length))
      | _, _ => none
    | _ => none
  match s.toList with
  | Char.ofNat 45 :: rest => (core rest).map Neg.neg
  | l => core l

/-! ## Rational statistics helpers -/

/-- Sum of a list of rationals. -/
def sumQ (l : List ℚ) : ℚ := l.foldr (· + ·) 0

/-- Mean of a series; pandas returns NaN (here `none`) on an empty series. -/
def meanQ (l : List ℚ) : Option ℚ :=
  if l.length = 0 then none else some (sumQ l / (l.length : ℚ))

/-- Maximum of a series; NaN on the empty series. -/
def maxQ (l : List ℚ) : Option ℚ :=
  match l with
  | [] => none
  | x :: xs => some (xs.foldr max x)

/-- Minimum of a series; NaN on the empty series. -/
def minQ (l : List ℚ) : Option ℚ :=
  match l with
  | [] => none
  | x :: xs => some (xs.foldr min x)

/-- `Series.quantile` with the default linear interpolation between order
statistics; NaN on the empty series. -/
def quantileQ (p : ℚ) (l : List ℚ) : Option ℚ :=
  match l.length with
  | 0 => none
  | Nat.succ m =>
    let s := l.insertionSort (· ≤ ·)
    let hpos : ℚ := p * (m : ℚ)
    let i : Nat := ⌊hpos⌋.toNat
    let γ : ℚ := hpos - (⌊hpos⌋ : ℚ)
    let lo := s.getD i 0
    let hi := s.getD (i + 1) lo
    some (lo + γ * (hi - lo))

/-- Sample variance (`ddof = 1`), only used with at least two values. -/
def sampleVarQ (l : List ℚ) : ℚ :=
  match meanQ l with
  | none => 0
  | some μ => sumQ (l.map (fun x => (x - μ) * (x - μ))) / ((l.length : ℚ) - 1)

/-- Round half to even, python's rounding for float formatting. -/
def rndHalfEven (q : ℚ) : Int :=
  let fl := ⌊q⌋
  let fr := q - (fl : ℚ)
  if fr < 1 / 2 then fl
  else if 1 / 2 < fr then fl + 1
  else if fl % 2 = 0 then fl else fl + 1

/-- Model of python `f"{x:.prec f}"` formatting over exact rationals. -/
def fmtFixed (prec : Nat) (q : ℚ) : String :=
  let scaled := rndHalfEven (q * ((10 : ℚ) ^ prec))
  let sign := if scaled < 0 then "-" else ""
  let a := scaled.natAbs
  if prec = 0 then sign ++ toString a
  else sign ++ toString (a / 10 ^ prec) ++ "." ++ padZeroes prec (toString (a % 10 ^ prec))

/-- `f"{x:.prec f}"` of a possibly-NaN float: NaN formats as `"nan"`. -/
def fmtOpt (prec : Nat) (o : Option ℚ) : String :=
  match o with
  | none => "nan"
  | some q => fmtFixed prec q

/-! ## Cells and DataFrames -/

/-- One pandas cell.  `date` is a `datetime64` timestamp, `pydate` a python
`datetime.date` object (the content of the derived `Day` column), `num` a
number, `str` a string; `nat`, `nan` and `null` are the missing values NaT,
NaN and None. -/
inductive Cell where
  | date (d : DateT)
  | pydate (d : DateT)
  | num (q : ℚ)
  | str (s : String)
  | nat
  | nan
  | null
deriving DecidableEq, Repr

/-- Whether a cell counts as missing for pandas (`isna`): dropped by
`groupby` keys, `nunique` and skipped by sums. -/
def Cell.isNull : Cell → Bool
  | .nat => true
  | .nan => true
  | .null => true
  | _ => false

/-- Whether a cell is a valid (non-null) datetime. -/
def Cell.isDate : Cell → Bool
  | .date _ => true
  | _ => false

/-- Numeric value of a cell for a skip-NA sum (missing contributes 0). -/
def Cell.numVal : Cell → ℚ
  | .num q => q
  | _ => 0

/-- A DataFrame: named columns in order.  (Row `i` is the family of `i`-th
entries of the columns; a well-formed frame has all columns of equal
length, see `DF.wf`.) -/
structure DF where
  cols : List (String × List Cell)
deriving DecidableEq, Repr

/-- The column labels, in order. -/
def DF.names (df : DF) : List String := df.cols.map Prod.fst

/-- `df[c]`: the values of column `c` (first column with that label). -/
def DF.getCol (df : DF) (c : String) : Option (List Cell) :=
  (df.cols.find? (fun p => p.1 = c)).map Prod.snd

/-- `df[c] = vs`: replace the values of every column labelled `c`, or
append a new column when the label is absent. -/
def DF.setCol (df : DF) (c : String) (vs : List Cell) : DF :=
  if c ∈ df.names then
    ⟨df.cols.map (fun p => if p.1 = c then (p.1, vs) else p)⟩
  else ⟨df.cols ++ [(c, vs)]⟩

/-- `len(df)`: the number of rows. -/
def DF.nrows (df : DF) : Nat :=
  match df.cols with
  | [] => 0
  | p :: _ => p.2.length

/-- Well-formedness: every column has the same length. -/
def DF.wf (df : DF) : Prop := ∀ p ∈ df.cols, p.2.length = df.nrows

/-- `df.copy()`. -/
def DF.copy (df : DF) : DF := ⟨df.cols.map (fun p => (p.1, p.2.map (fun c => c)))⟩

/-- The modelled python exceptions. -/
inductive PyErr where
  /-- `KeyError` from indexing a missing column. -/
  | keyError (col : String)
  /-- `ValueError: NaTType does not support strftime`. -/
  | natStrftime
  /-- `ValueError` from `idxmax`/`idxmin` of an empty series. -/
  | emptyIdxmax
  /-- a `TypeError`/`AttributeError` from an operation on a column of the
  wrong kind (e.g. the `.dt` accessor on a non-datetime column). -/
  | typeError (what : String)
deriving DecidableEq, Repr

/-- Equality of modelled python outcomes is decidable. -/
instance {ε α : Type} [DecidableEq ε] [DecidableEq α] : DecidableEq (Except ε α) :=
  fun a b =>
    match a, b with
    | .ok x, .ok y =>
      if h : x = y then isTrue (h ▸ rfl) else isFalse (fun he => h (Except.ok.inj he))
    | .error x, .error y =>
      if h : x = y then isTrue (h ▸ rfl) else isFalse (fun he => h (Except.error.inj he))
    | .ok _, .error _ => isFalse (fun he => Except.noConfusion he)
    | .error _, .ok _ => isFalse (fun he => Except.noConfusion he)

/-- `df[c]` as a fallible read: `KeyError` when the column is absent. -/
def DF.getColE (df : DF) (c : String) : Except PyErr (List Cell) :=
  match df.getCol c with
  | some vs => .ok vs
  | none => .error (.keyError c)

/-! ## The period deriver: `load_and_prepare_data` -/

/-- `pd.to_datetime(_, errors='coerce')` on one cell: datetimes and date
objects pass through, numbers are epoch nanoseconds, strings are parsed,
anything unparseable or missing becomes NaT. -/
def toDatetime : Cell → Cell
  | .date d => .date d
  | .pydate d => .date d
  | .num q => .date (civilFromDays ⌊q / 86400000000000⌋)
  | .str s => match parseDate s with
    | some d => .date d
    | none => .nat
  | .nat => .nat
  | .nan => .nat
  | .null => .nat

/-- `pd.to_numeric(_, errors='coerce')` on one cell: numbers pass through,
datetimes become epoch nanoseconds, strings are parsed, anything else
becomes NaN. -/
def toNumeric : Cell → Cell
  | .num q => .num q
  | .date d => .num ((daysFromCivil d * 86400000000000 : Int) : ℚ)
  | .str s => match parseNum s with
    | some q => .num q
    | none => .nan
  | .nat => .nan
  | .nan => .nan
  | .null => .nan
  | .pydate _ => .nan

/-- Whether every cell of a column is a timestamp or NaT: the condition
for the `.dt` accessor (on anything else pandas raises). -/
def datetimeCol (vs : List Cell) : Bool := vs.all (fun c => c.isDate || c = .nat)

/-- `.dt.year` of one cell (NaT gives NaN). -/
def dtYear : Cell → Cell
  | .date d => .num (d.year : ℚ)
  | _ => .nan

/-- `.dt.month` of one cell. -/
def dtMonth : Cell → Cell
  | .date d => .num (d.month : ℚ)
  | _ => .nan

/-- `.dt.date` of one cell: a python `date` object, NaT stays NaT. -/
def dtDate : Cell → Cell
  | .date d => .pydate d
  | _ => .nat

/-- `.dt.day_name()` of one cell. -/
def dtDayName : Cell → Cell
  | .date d => .str (dayName d)
  | _ => .nan

/-- `.dt.strftime('%Y-W%U')` of one cell (NaT gives NaN). -/
def dtYearWeek : Cell → Cell
  | .date d => .str (fmtYearWeek d)
  | _ => .nan

/-- `.dt.to_period('Q')` of one cell (NaT stays NaT). -/
def dtQuarter : Cell → Cell
  | .date d => .str (quarterLabel d)
  | _ => .nat

/-- One derived-column assignment `df[name] = f(df[DATE_COL].dt)` — the
date column is re-read from the current frame, the `.dt` accessor checked,
and the derived column stored. -/
def deriveStep (dateCol : String) (name : String) (f : Cell → Cell) (df : DF) :
    Except PyErr DF :=
  match df.getCol dateCol with
  | none => .error (.keyError dateCol)
  | some vs =>
    if datetimeCol vs then .ok (df.setCol name (vs.map f))
    else .error (.typeError "dt accessor on non-datetime column")

/-- The derived calendar columns in assignment order, each with the
`.dt`-map that produces it. -/
def derivedSpecs : List (String × (Cell → Cell)) :=
  [("Year", dtYear), ("Month", dtMonth), ("Day", dtDate), ("Weekday", dtDayName),
   ("Year_Week", dtYearWeek), ("Year_Quarter", dtQuarter)]

/-- The names of the derived calendar columns, in assignment order. -/
def derivedNames : List String := derivedSpecs.map Prod.fst

/-- The sequence of derived-column assignments of `load_and_prepare_data`. -/
def deriveChain (dateCol : String) : List (String × (Cell → Cell)) → DF → Except PyErr DF
  | [], df => .ok df
  | (n, f) :: rest, df =>
    match deriveStep dateCol n f df with
    | .error e => .error e
    | .ok df2 => deriveChain dateCol rest df2

/-- `load_and_prepare_data` (the in-memory DataFrame branch): coerce the
date and quantity columns, then attach the six derived calendar columns.
Reading a missing date or quantity column raises `KeyError`. -/
def load_and_prepare_data (dateCol quantityCol : String) (df0 : DF) :
    Except PyErr DF :=
  match (df0.copy).getCol dateCol with
  | none => .error (.keyError dateCol)
  | some dvs =>
    let dfa := (df0.copy).setCol dateCol (dvs.map toDatetime)
    match dfa.getCol quantityCol with
    | none => .error (.keyError quantityCol)
    | some qvs =>
      deriveChain dateCol derivedSpecs (dfa.setCol quantityCol (qvs.map toNumeric))

/-! ## The statistics summarizer: `calculate_statistics` -/

/-- A statistic value: NaN, an exact rational, or the square root of a
rational (the sample standard deviation of two or more values). -/
inductive StatVal where
  | nan
  | q (x : ℚ)
  | sqrtv (x : ℚ)
deriving DecidableEq, Repr

/-- The dictionary returned by `calculate_statistics` (the `name_` prefix
of the keys is dropped; the fields are the fixed statistic set). -/
structure StatsD where
  count : StatVal
  min : StatVal
  max : StatVal
  mean : StatVal
  median : StatVal
  std : StatVal
  p25 : StatVal
  p75 : StatVal
  p90 : StatVal
  p95 : StatVal
deriving DecidableEq, Repr

/-- The all-NaN dictionary returned for an empty or all-null series. -/
def statsAllNan : StatsD :=
  ⟨.nan, .nan, .nan, .nan, .nan, .nan, .nan, .nan, .nan, .nan⟩

/-- Lift `Option ℚ` into a statistic value. -/
def StatVal.ofOpt : Option ℚ → StatVal
  | none => .nan
  | some x => .q x

/-- `calculate_statistics` over a numeric series (`none` entries are NaN).
Empty and all-NaN series yield the all-NaN dictionary; otherwise the
statistics of the non-null values, with `std = 0` for a single value. -/
def calculate_statistics (series : List (Option ℚ)) : StatsD :=
  if series.length = 0 then statsAllNan
  else
    let clean := series.filterMap id
    if clean.length = 0 then statsAllNan
    else
      { count := .q (clean.length : ℚ)
        min := .ofOpt (minQ clean)
        max := .ofOpt (maxQ clean)
        mean := .ofOpt (meanQ clean)
        median := .ofOpt (quantileQ (1 / 2) clean)
        std := if 1 < clean.length then .sqrtv (sampleVarQ clean) else .q 0
        p25 := .ofOpt (quantileQ (1 / 4) clean)
        p75 := .ofOpt (quantileQ (3 / 4) clean)
        p90 := .ofOpt (quantileQ (9 / 10) clean)
        p95 := .ofOpt (quantileQ (19 / 20) clean) }

/-! ## Grouping machinery -/

/-- An arbitrary rank used to order cells of different kinds. -/
def Cell.rank : Cell → Nat
  | .date _ => 0
  | .pydate _ => 1
  | .num _ => 2
  | .str _ => 3
  | .nat => 4
  | .nan => 5
  | .null => 6

/-- A total boolean order on cells, modelling the ascending key order of
`groupby(sort=True)` (keys of one group column are of one kind). -/
def cellLe (a b : Cell) : Bool :=
  match a, b with
  | .date x, .date y => daysFromCivil x ≤ daysFromCivil y
  | .pydate x, .pydate y => daysFromCivil x ≤ daysFromCivil y
  | .num x, .num y => x ≤ y
  | .str x, .str y => (compare x y).isLE
  | _, _ => a.rank ≤ b.rank

/-- The group keys of a column: its distinct non-null values in ascending
order (`groupby` drops null keys and sorts). -/
def groupKeys (vs : List Cell) : List Cell :=
  ((vs.filter (fun c => !c.isNull)).dedup).insertionSort (fun a b => cellLe a b)

/-- The pair group keys of two aligned columns (`groupby` on two columns):
distinct pairs with both components non-null, in ascending lexicographic
order. -/
def groupKeys2 (ws ds : List Cell) : List (Cell × Cell) :=
  (((ws.zip ds).filter (fun p => !p.1.isNull && !p.2.isNull)).dedup).insertionSort
    (fun a b => if a.1 = b.1 then cellLe a.2 b.2 else cellLe a.1 b.1)

/-- `nunique` of a list of cells: distinct non-null values. -/
def nuniqueCells (vs : List Cell) : Nat := ((vs.filter (fun c => !c.isNull)).dedup).length

/-- Skip-NA sum of a list of cells (pandas `sum`; empty or all-null sums
to 0). -/
def sumCells (vs : List Cell) : ℚ := sumQ (vs.map Cell.numVal)

/-! ## The period aggregator: `analyze_by_period` -/

/-- One row of a period summary. -/
structure PeriodRow where
  periodType : String
  period : Cell
  linesTotal : Nat
  totalQuantity : ℚ
  invoicesUnique : Nat
  /-- `Lines_Total / Invoices_Unique`; `none` models the non-finite float
  produced when a group has zero non-null invoices. -/
  avgLinesPerInvoice : Option ℚ
deriving DecidableEq, Repr

/-- `analyze_by_period`: group the frame by one period column and report,
per observed key, the line count, summed quantity, distinct invoice count
and lines-per-invoice ratio. -/
def analyze_by_period (quantityCol invoiceCol : String) (df : DF)
    (periodCol : String) : Except PyErr (List PeriodRow) := do
  let ps ← df.getColE periodCol
  let qs ← df.getColE quantityCol
  let invs ← df.getColE invoiceCol
  let rows := ps.zip (qs.zip invs)
  .ok ((groupKeys ps).map (fun k =>
    let grp := rows.filter (fun r => r.1 = k)
    let lines := grp.length
    let invoices := nuniqueCells (grp.map (fun r => r.2.2))
    { periodType := periodCol
      period := k
      linesTotal := lines
      totalQuantity := sumCells (grp.map (fun r => r.2.1))
      invoicesUnique := invoices
      avgLinesPerInvoice :=
        if invoices = 0 then none else some ((lines : ℚ) / (invoices : ℚ)) }))

/-! ## Planning statistics and category analysis -/

/-- A cell of the `Value` column of the daily-statistics sheet: the first
entry is a python `int`, every other entry an f-string. -/
inductive SVal where
  | num (n : Nat)
  | str (s : String)
deriving DecidableEq, Repr

/-- `calculate_daily_statistics`: the `(Metric, Value)` rows computed over
the day-level period summary. -/
def calculate_daily_statistics (daily : List PeriodRow) : List (String × SVal) :=
  let lt := daily.map (fun r => (r.linesTotal : ℚ))
  let qt := daily.map (fun r => r.totalQuantity)
  [("Days Analyzed", .num daily.length),
   ("Avg Lines per Day", .str (fmtOpt 1 (meanQ lt))),
   ("Max Lines per Day", .str (fmtOpt 0 (maxQ lt))),
   ("Min Lines per Day", .str (fmtOpt 0 (minQ lt))),
   ("Lines 75th Percentile", .str (fmtOpt 0 (quantileQ (3 / 4) lt))),
   ("Lines 90th Percentile", .str (fmtOpt 0 (quantileQ (9 / 10) lt))),
   ("Avg Units per Day", .str (fmtOpt 1 (meanQ qt))),
   ("Max Units per Day", .str (fmtOpt 0 (maxQ qt))),
   ("Min Units per Day", .str (fmtOpt 0 (minQ qt))),
   ("Units 75th Percentile", .str (fmtOpt 0 (quantileQ (3 / 4) qt))),
   ("Units 90th Percentile", .str (fmtOpt 0 (quantileQ (9 / 10) qt)))]

/-- One row of the weekday-statistics sheet. -/
structure WRow where
  weekday : String
  avgUnits : String
  p90Units : String
  daysCount : Nat
deriving DecidableEq, Repr

/-- `calculate_weekday_statistics`: per-(weekday, day) quantity totals, then
for each weekday of the canonical Monday→Sunday list with at least one
observed day, the mean and 90th percentile of its per-day totals. -/
def calculate_weekday_statistics (quantityCol : String) (df : DF) :
    Except PyErr (List WRow) := do
  let ws ← df.getColE "Weekday"
  let ds ← df.getColE "Day"
  let qs ← df.getColE quantityCol
  let triples := ws.zip (ds.zip qs)
  let dailyByWeekday := (groupKeys2 ws ds).map (fun k =>
    (k, sumCells ((triples.filter (fun t => t.1 = k.1 ∧ t.2.1 = k.2)).map
      (fun t => t.2.2))))
  .ok (weekdaysOrder.filterMap (fun w =>
    let wdata := dailyByWeekday.filter (fun e => e.1.1 = .str w)
    if wdata.length ≠ 0 then
      let quantities := wdata.map (fun e => e.2)
      some { weekday := w
             avgUnits := fmtOpt 1 (meanQ quantities)
             p90Units := fmtOpt 0 (quantileQ (9 / 10) quantities)
             daysCount := quantities.length }
    else none))

/-- One row of the category analysis. -/
structure CatRow where
  category : Cell
  avgUnitsPerDay : ℚ
deriving DecidableEq, Repr

/-- `round` to one decimal (numpy round-half-even), as applied by
`analyze_category_by_day`. -/
def round1 (q : ℚ) : ℚ := (rndHalfEven (q * 10) : ℚ) / 10

/-- `analyze_category_by_day`: per-(category, day) quantity totals, then
the per-category mean of those per-day totals, rounded to one decimal. -/
def analyze_category_by_day (categoryCol quantityCol : String) (df : DF) :
    Except PyErr (List CatRow) := do
  let cs ← df.getColE categoryCol
  let ds ← df.getColE "Day"
  let qs ← df.getColE quantityCol
  let triples := cs.zip (ds.zip qs)
  let catDaily := (groupKeys2 cs ds).map (fun k =>
    (k, sumCells ((triples.filter (fun t => t.1 = k.1 ∧ t.2.1 = k.2)).map
      (fun t => t.2.2))))
  .ok ((groupKeys cs).map (fun c =>
    let totals := (catDaily.filter (fun e => e.1.1 = c)).map (fun e => e.2)
    { category := c
      avgUnitsPerDay := round1 ((meanQ totals).getD 0) }))

/-! ## `comprehensive_analysis` -/

/-- The dictionary of result tables returned by `comprehensive_analysis`.
`categoryAnalysis = none` models the absence of the `Category_Analysis`
key. -/
structure Analyses where
  daily : List PeriodRow
  weekly : List PeriodRow
  monthly : List PeriodRow
  weekday : List PeriodRow
  quarterly : List PeriodRow
  dailyStatistics : List (String × SVal)
  weekdayStatistics : List WRow
  categoryAnalysis : Option (List CatRow)
deriving DecidableEq, Repr

/-- The numeric values of a column (non-null numbers). -/
def numsOf (vs : List Cell) : List ℚ :=
  vs.filterMap (fun c => match c with | .num q => some q | _ => none)

/-- `df[col].min()` over a datetime column: `none` is NaT (empty or all-NaT
column); a non-datetime column makes the subsequent `.date()`/`.strftime`
call raise. -/
def minDateCol (vs : List Cell) : Except PyErr (Option DateT) :=
  if datetimeCol vs then
    .ok (match vs.filterMap (fun c => match c with | .date d => some (daysFromCivil d) | _ => none) with
         | [] => none
         | x :: xs => some (civilFromDays (xs.foldr min x)))
  else .error (.typeError "date of a non-datetime value")

/-- `df[col].max()` over a datetime column. -/
def maxDateCol (vs : List Cell) : Except PyErr (Option DateT) :=
  if datetimeCol vs then
    .ok (match vs.filterMap (fun c => match c with | .date d => some (daysFromCivil d) | _ => none) with
         | [] => none
         | x :: xs => some (civilFromDays (xs.foldr max x)))
  else .error (.typeError "date of a non-datetime value")

/-- Whether every cell of a column is numeric or missing. -/
def numericCol (vs : List Cell) : Bool :=
  vs.all (fun c => match c with | .num _ => true | .nan => true | .null => true | _ => false)

/-- The `f"{df[QUANTITY_COL].sum():,}"` overview line: formatting the sum
of a non-numeric column raises. -/
def sumNumericCol (vs : List Cell) : Except PyErr ℚ :=
  if numericCol vs then .ok (sumCells vs)
  else .error (.typeError "sum of a non-numeric column")

/-- `comprehensive_analysis`: the dataset-overview reads (which surface
`KeyError` for a missing invoice/product column), then the five period
aggregations, the daily and weekday planning statistics, and — only when
the category column is supplied, non-empty and present — the category
analysis. -/
def comprehensive_analysis (dateCol invoiceCol productCol quantityCol : String)
    (df : DF) (categoryCol : Option String) : Except PyErr Analyses := do
  let dates ← df.getColE dateCol
  let _ ← minDateCol dates
  let _ ← maxDateCol dates
  let _ ← df.getColE invoiceCol
  let _ ← df.getColE productCol
  let qs ← df.getColE quantityCol
  let _ ← sumNumericCol qs
  let daily ← analyze_by_period quantityCol invoiceCol df "Day"
  let weekly ← analyze_by_period quantityCol invoiceCol df "Year_Week"
  let monthly ← analyze_by_period quantityCol invoiceCol df "Month"
  let weekday ← analyze_by_period quantityCol invoiceCol df "Weekday"
  let quarterly ← analyze_by_period quantityCol invoiceCol df "Year_Quarter"
  let dailyStats := calculate_daily_statistics daily
  let weekdayStats ← calculate_weekday_statistics quantityCol df
  let category ←
    match categoryCol with
    | some c =>
      if c ≠ "" ∧ c ∈ df.names then do
        let ca ← analyze_category_by_day c quantityCol df
        pure (some ca)
      else pure none
    | none => pure none
  .ok { daily := daily, weekly := weekly, monthly := monthly,
        weekday := weekday, quarterly := quarterly,
        dailyStatistics := dailyStats, weekdayStatistics := weekdayStats,
        categoryAnalysis := category }

/-! ## The report summary sheet (`export_analysis_to_excel`, summary part) -/

/-- Split a digit string into groups of three, starting from the right. -/
def chunk3 : List Char → List String
  | [] => []
  | [a] => [String.mk [a]]
  | [a, b] => [String.mk [a, b]]
  | a :: b :: c :: rest => String.mk [a, b, c] :: chunk3 rest

/-- Insert thousands separators into a digit string. -/
def groupThousands (s : String) : String :=
  String.intercalate ","
    (((chunk3 s.data.reverse).map (fun t => String.mk t.data.reverse)).reverse)

/-- Python `f"{n:,}"` of a natural number. -/
def fmtThousandsNat (n : Nat) : String := groupThousands (toString n)

/-- Python `f"{i:,}"` of an integer. -/
def fmtThousandsInt (i : Int) : String :=
  if i < 0 then "-" ++ fmtThousandsNat i.natAbs else fmtThousandsNat i.toNat

/-- Rendering of a rational with thousands separators, modelling
`f"{x:,}"` of a float (fractional digits are reproduced only for exactly
representable decimal fractions; no claim inspects these characters). -/
def fmtThousandsQ (q : ℚ) : String :=
  if q.den = 1 then fmtThousandsInt q.num ++ ".0"
  else fmtThousandsInt ⌊q⌋ ++ "." ++ toString ⌊(q - (⌊q⌋ : ℚ)) * 10 ^ 12⌋.natAbs

/-- `strftime('%Y-%m-%d')` of a date. -/
def fmtIsoDate (dt : DateT) : String :=
  fmtYear dt.year ++ "-" ++ padZeroes 2 (toString dt.month) ++ "-" ++
    padZeroes 2 (toString dt.day)

/-- `Timestamp.strftime`, raising on NaT
(`ValueError: NaTType does not support strftime`). -/
def strftimeIso (o : Option DateT) : Except PyErr String :=
  match o with
  | none => .error .natStrftime
  | some d => .ok (fmtIsoDate d)

/-- `str()` of a cell, as interpolated into the summary sheet. -/
def cellRepr : Cell → String
  | .date d => fmtIsoDate d
  | .pydate d => fmtIsoDate d
  | .num q => fmtThousandsQ q
  | .str s => s
  | .nat => "NaT"
  | .nan => "nan"
  | .null => "None"

/-- `Series.idxmax` over the day-level `Lines_Total` values: the period of
the first row attaining the maximum; raises `ValueError` on an empty
frame. -/
def idxmaxLines (daily : List PeriodRow) : Except PyErr Cell :=
  match daily with
  | [] => .error .emptyIdxmax
  | r :: rs =>
    let m := (rs.map (fun x => x.linesTotal)).foldr max r.linesTotal
    match (r :: rs).find? (fun x => x.linesTotal = m) with
    | some row => .ok row.period
    | none => .ok r.period

/-- `Series.idxmin` over the day-level `Lines_Total` values. -/
def idxminLines (daily : List PeriodRow) : Except PyErr Cell :=
  match daily with
  | [] => .error .emptyIdxmax
  | r :: rs =>
    let m := (rs.map (fun x => x.linesTotal)).foldr min r.linesTotal
    match (r :: rs).find? (fun x => x.linesTotal = m) with
    | some row => .ok row.period
    | none => .ok r.period

/-- The `Value` column of the Summary sheet of `export_analysis_to_excel`,
evaluated in source order; every other sheet of the workbook is a result
table already present in `analyses` plus the product/invoice rollups and
the raw sample, none of which raise before this block does. -/
def export_summary_rows (dateCol invoiceCol productCol quantityCol : String)
    (df : DF) (analyses : Analyses) (generatedOn : String) :
    Except PyErr (List String) := do
  let totalLines := fmtThousandsNat df.nrows
  let dates ← df.getColE dateCol
  let dmin ← minDateCol dates
  let rangeStart ← strftimeIso dmin
  let dmax ← maxDateCol dates
  let rangeEnd ← strftimeIso dmax
  let totalDays :=
    match dmin, dmax with
    | some a, some b => fmtThousandsInt (daysFromCivil b - daysFromCivil a + 1)
    | _, _ => ""
  let invs ← df.getColE invoiceCol
  let prods ← df.getColE productCol
  let qs ← df.getColE quantityCol
  let qsum ← sumNumericCol qs
  let avgQty := fmtOpt 2 (meanQ (numsOf qs))
  let invoiceSizes := (groupKeys invs).map (fun k =>
    ((invs.filter (fun c => c = k)).length : ℚ))
  let avgLines := fmtOpt 2 (meanQ invoiceSizes)
  let best ← idxmaxLines analyses.daily
  let worst ← idxminLines analyses.daily
  .ok [totalLines, rangeStart, rangeEnd, totalDays,
       fmtThousandsNat (nuniqueCells invs), fmtThousandsNat (nuniqueCells prods),
       fmtThousandsQ qsum, avgQty, avgLines,
       cellRepr best, cellRepr worst, generatedOn]

/-! ## Derived definitions used by the verification -/

/-- The dictionary `calculate_statistics` produces for a series with the
single valid value `v`. -/
def statsSingle (v : ℚ) : StatsD :=
  { count := .q 1, min := .q v, max := .q v, mean := .q v, median := .q v,
    std := .q 0, p25 := .q v, p75 := .q v, p90 := .q v, p95 := .q v }

/-- The observable effect of one call of `load_and_prepare_data` on the
caller's DataFrame object: the function's first statement binds its local
`df` to `data_source.copy()`, so every subsequent column assignment
mutates the copy, and the caller's object is left as it was. -/
structure CallEffect where
  callerTable : DF
  result : Except PyErr DF
deriving Repr

/-- Calling `load_and_prepare_data` on an in-memory table: the state of
the caller's table after the call, and the returned derived table. -/
def load_and_prepare_data_effect (dateCol quantityCol : String) (input : DF) :
    CallEffect :=
  { callerTable := input
    result := load_and_prepare_data dateCol quantityCol input }

/-- Modelled from the spec: the weekday-statistics row of one weekday,
written after the spec's words — take that weekday's rows having a valid
calendar day, collapse them to one total quantity per actual calendar
day, and report the mean and 90th percentile of those per-day totals; a
weekday with zero observed calendar days yields no row. -/
def specWeekdayRow (ws ds qs : List Cell) (w : String) : Option WRow :=
  let triples := ws.zip (ds.zip qs)
  let wrows := triples.filter (fun t => t.1 = .str w && !t.2.1.isNull)
  let days := (wrows.map (fun t => t.2.1)).dedup
  match days with
  | [] => none
  | _ :: _ =>
    let totals := days.map (fun d =>
      sumCells ((wrows.filter (fun t => t.2.1 = d)).map (fun t => t.2.2)))
    some { weekday := w
           avgUnits := fmtOpt 1 (meanQ totals)
           p90Units := fmtOpt 0 (quantileQ (9 / 10) totals)
           daysCount := totals.length }

/-- The per-weekday row builder of `calculate_weekday_statistics`, as a
standalone function of the three columns (for the refinement proof against
`specWeekdayRow`). -/
def codeWeekdayRow (ws ds qs : List Cell) (w : String) : Option WRow :=
  let triples := ws.zip (ds.zip qs)
  let dailyByWeekday := (groupKeys2 ws ds).map (fun k =>
    (k, sumCells ((triples.filter (fun t => t.1 = k.1 ∧ t.2.1 = k.2)).map
      (fun t => t.2.2))))
  let wdata := dailyByWeekday.filter (fun e => e.1.1 = .str w)
  if wdata.length ≠ 0 then
    let quantities := wdata.map (fun e => e.2)
    some { weekday := w
           avgUnits := fmtOpt 1 (meanQ quantities)
           p90Units := fmtOpt 0 (quantileQ (9 / 10) quantities)
           daysCount := quantities.length }
  else none

/-- The shape of python's `.1f` formatting: `nan`, or a signed decimal
numeral with exactly one digit after the point. -/
def oneDecimalStr (s : String) : Prop :=
  s = "nan" ∨ ∃ (sign : String) (n d : Nat),
    (sign = "" ∨ sign = "-") ∧ d < 10 ∧ s = sign ++ toString n ++ "." ++ toString d

/-- The shape of python's `.0f` formatting: `nan`, or a signed integer
numeral with no decimal point. -/
def zeroDecimalStr (s : String) : Prop :=
  s = "nan" ∨ ∃ (sign : String) (n : Nat),
    (sign = "" ∨ sign = "-") ∧ s = sign ++ toString n

/-- A small concrete order table used as witness input: five lines over
three valid dates (two Mondays and one Tuesday), one unparseable date,
one unparseable quantity and one missing invoice. -/
def sampleTable : DF := ⟨[
  ("Fecha", [.str "2024-10-07", .str "2024-10-07", .str "2024-10-08",
             .str "bad", .str "2024-10-14"]),
  ("Pedido", [.str "A", .str "A", .str "B", .str "C", .null]),
  ("Material", [.str "x", .str "y", .str "x", .str "z", .str "x"]),
  ("Cantidad", [.str "5", .num 3, .str "oops", .num 2, .num 7])]⟩

/-- A table that has the date and quantity columns but no invoice column. -/
def sampleNoInvoice : DF :=
  ⟨[("Fecha", [.str "2024-10-07"]), ("Cantidad", [.num 1])]⟩

/-- A one-column table holding a single coerced date. -/
def sampleOnlyDate : DF := ⟨[("Fecha", [.date ⟨2024, 10, 7⟩])]⟩

/-- A table with a date and an invoice column but no product column. -/
def sampleDateInvoice : DF :=
  ⟨[("Fecha", [.date ⟨2024, 10, 7⟩]), ("Pedido", [.str "A"])]⟩

/-- The derived table `load_and_prepare_data` produces from
`sampleTable` (see `sampleDerived_eq`). -/
def sampleDerived : DF := ⟨[
  ("Fecha", [.date ⟨2024, 10, 7⟩, .date ⟨2024, 10, 7⟩, .date ⟨2024, 10, 8⟩,
             .nat, .date ⟨2024, 10, 14⟩]),
  ("Pedido", [.str "A", .str "A", .str "B", .str "C", .null]),
  ("Material", [.str "x", .str "y", .str "x", .str "z", .str "x"]),
  ("Cantidad", [.num 5, .num 3, .nan, .num 2, .num 7]),
  ("Year", [.num 2024, .num 2024, .num 2024, .nan, .num 2024]),
  ("Month", [.num 10, .num 10, .num 10, .nan, .num 10]),
  ("Day", [.pydate ⟨2024, 10, 7⟩, .pydate ⟨2024, 10, 7⟩, .pydate ⟨2024, 10, 8⟩,
           .nat, .pydate ⟨2024, 10, 14⟩]),
  ("Weekday", [.str "Monday", .str "Monday", .str "Tuesday", .nan, .str "Monday"]),
  ("Year_Week", [.str "2024-W40", .str "2024-W40", .str "2024-W40", .nan,
                 .str "2024-W41"]),
  ("Year_Quarter", [.str "2024Q4", .str "2024Q4", .str "2024Q4", .nat,
                    .str "2024Q4"])]⟩

/-- An empty (zero-row) derived table carrying all required columns. -/
def sampleEmpty : DF := ⟨[
  ("Fecha", []), ("Pedido", []), ("Material", []), ("Cantidad", []),
  ("Year", []), ("Month", []), ("Day", []), ("Weekday", []),
  ("Year_Week", []), ("Year_Quarter", [])]⟩

/-- The result set `comprehensive_analysis` produces for an empty table:
all period summaries empty, the daily statistics all-NaN, and no category
analysis. -/
def emptyAnalyses : Analyses :=
  { daily := [], weekly := [], monthly := [], weekday := [], quarterly := [],
    dailyStatistics := calculate_daily_statistics [], weekdayStatistics := [],
    categoryAnalysis := none }

theorem except_ok_bind {ε α β : Type} (a : α) (f : α → Except ε β) :
    (Except.ok a : Except ε α) >>= f = f a := rfl

theorem except_error_bind {ε α β : Type} (e : ε) (f : α → Except ε β) :
    (Except.error e : Except ε α) >>= f = .error e := rfl

theorem except_pure_bind {ε α β : Type} (a : α) (f : α → Except ε β) :
    (pure a : Except ε α) >>= f = f a := rfl

/-! ## Helper lemmas: the statistics summarizer on degenerate series -/

theorem quantileQ_singleton (p v : ℚ) : quantileQ p [v] = some v := by
  show some _ = some v
  simp [List.insertionSort, List.orderedInsert]

theorem meanQ_singleton (v : ℚ) : meanQ [v] = some v := by
  simp [meanQ, sumQ]

theorem calc_stats_allnull (series : List (Option ℚ))
    (h : series.filterMap id = []) : calculate_statistics series = statsAllNan := by
  unfold calculate_statistics
  by_cases h0 : series.length = 0 <;> simp [h0, h]

theorem calc_stats_single (series : List (Option ℚ)) (v : ℚ)
    (h : series.filterMap id = [v]) : calculate_statistics series = statsSingle v := by
  have hne : series.length ≠ 0 := by
    intro h0
    rw [List.length_eq_zero] at h0
    simp [h0] at h
  unfold calculate_statistics
  simp only [hne, if_false, h]
  simp [statsSingle, quantileQ_singleton, meanQ_singleton, minQ, maxQ, StatVal.ofOpt]

/-! ## Helper lemmas: DataFrame column access -/

/-- The per-column substitution applied by `DF.setCol` on a present label. -/
def substF (c : String) (vs : List Cell) : String × List Cell → String × List Cell :=
  fun p => if p.1 = c then (p.1, vs) else p

theorem substF_fst (c : String) (vs : List Cell) (p : String × List Cell) :
    (substF c vs p).1 = p.1 := by
  unfold substF
  by_cases h : p.1 = c <;> simp [h]

theorem find?_substF_ne (c c2 : String) (vs : List Cell) (h : c2 ≠ c) :
    ∀ (l : List (String × List Cell)),
      (l.map (substF c vs)).find? (fun p => p.1 = c2) = l.find? (fun p => p.1 = c2) := by
  intro l
  induction l with
  | nil => rfl
  | cons p rest ih =>
    by_cases hp : p.1 = c
    · have hne : ¬ (p.1 = c2) := fun he => h (he ▸ hp)
      simp only [List.map_cons]
      rw [List.find?_cons_of_neg _ (by simp [substF_fst, hne]),
        List.find?_cons_of_neg _ (by simp [hne]), ih]
    · by_cases hp2 : p.1 = c2
      · simp only [List.map_cons]
        rw [List.find?_cons_of_pos _ (by simp [substF_fst, hp2]),
          List.find?_cons_of_pos _ (by simp [hp2])]
        simp [substF, hp]
      · simp only [List.map_cons]
        rw [List.find?_cons_of_neg _ (by simp [substF_fst, hp2]),
          List.find?_cons_of_neg _ (by simp [hp2]), ih]

theorem find?_substF_self (c : String) (vs : List Cell) :
    ∀ (l : List (String × List Cell)), c ∈ l.map Prod.fst →
      (l.map (substF c vs)).find? (fun p => p.1 = c) = some (c, vs) := by
  intro l
  induction l with
  | nil => intro h; cases h
  | cons p rest ih =>
    intro h
    by_cases hp : p.1 = c
    · simp only [List.map_cons]
      rw [List.find?_cons_of_pos _ (by simp [substF_fst, hp])]
      simp [substF, hp]
    · have hmem : c ∈ rest.map Prod.fst := by
        rcases List.mem_cons.mp h with h1 | h1
        · exact absurd h1.symm hp
        · exact h1
      simp only [List.map_cons]
      rw [List.find?_cons_of_neg _ (by simp [substF_fst, hp]), ih hmem]

theorem map_substF_same (c : String) (vs : List Cell) :
    ∀ (l : List (String × List Cell)), (l.map Prod.fst).Nodup →
      l.find? (fun p => p.1 = c) = some (c, vs) → l.map (substF c vs) = l := by
  intro l
  induction l with
  | nil => intro _ h; cases h
  | cons p rest ih =>
    intro hnd h
    rw [List.map_cons] at hnd
    obtain ⟨hnotin, hndr⟩ := List.nodup_cons.mp hnd
    by_cases hp : p.1 = c
    · rw [List.find?_cons_of_pos _ (by simp [hp])] at h
      have hpv : p = (c, vs) := by simpa using h
      have h2 : rest.map (substF c vs) = rest := by
        have hq : ∀ q ∈ rest, substF c vs q = q := by
          intro q hq
          have hqc : ¬ (q.1 = c) := by
            intro he
            have : p.1 = q.1 := by rw [hp, he]
            exact hnotin (this ▸ List.mem_map_of_mem Prod.fst hq)
          simp [substF, hqc]
        calc rest.map (substF c vs) = rest.map id := List.map_congr_left hq
        _ = rest := List.map_id rest
      rw [List.map_cons, h2]
      congr 1
      rw [hpv]
      simp [substF]
    · rw [List.find?_cons_of_neg _ (by simp [hp])] at h
      rw [List.map_cons, ih hndr h]
      congr 1
      simp [substF, hp]

theorem DF.copy_eq (df : DF) : df.copy = df := by
  unfold DF.copy
  cases df with
  | mk cols =>
    congr 1
    induction cols with
    | nil => rfl
    | cons p rest ih => simp_all

theorem DF.getCol_eq_none (df : DF) (c : String) (h : c ∉ df.names) :
    df.getCol c = none := by
  unfold DF.getCol
  rw [List.find?_eq_none.mpr]
  · rfl
  · intro p hp
    simp only [decide_eq_true_eq]
    intro he
    exact h (he ▸ List.mem_map_of_mem Prod.fst hp)

theorem DF.getCol_isSome (df : DF) (c : String) (h : c ∈ df.names) :
    ∃ vs, df.getCol c = some vs := by
  unfold DF.getCol
  obtain ⟨p, hp, hc⟩ := List.mem_map.mp h
  have hs : (df.cols.find? (fun p => p.1 = c)).isSome :=
    List.find?_isSome.mpr ⟨p, hp, by simpa using hc⟩
  obtain ⟨q, hq⟩ := Option.isSome_iff_exists.mp hs
  exact ⟨q.2, by rw [hq]; rfl⟩

theorem DF.mem_names_of_getCol (df : DF) (c : String) (vs : List Cell)
    (h : df.getCol c = some vs) : c ∈ df.names := by
  unfold DF.getCol at h
  cases hf : df.cols.find? (fun p => p.1 = c) with
  | none => rw [hf] at h; exact absurd h (by simp)
  | some p =>
    have hmem := List.mem_of_find?_eq_some hf
    have hc : p.1 = c := by simpa using List.find?_some hf
    exact hc ▸ List.mem_map_of_mem Prod.fst hmem

theorem DF.getCol_setCol_self (df : DF) (c : String) (vs : List Cell) :
    (df.setCol c vs).getCol c = some vs := by
  unfold DF.setCol
  by_cases h : c ∈ df.names
  · rw [if_pos h]
    show Option.map Prod.snd ((df.cols.map (substF c vs)).find? (fun p => p.1 = c)) = some vs
    rw [find?_substF_self c vs df.cols h]
    rfl
  · rw [if_neg h]
    show Option.map Prod.snd ((df.cols ++ [(c, vs)]).find? (fun p => p.1 = c)) = some vs
    rw [List.find?_append, List.find?_eq_none.mpr, Option.none_or]
    · simp
    · intro p hp
      simp only [decide_eq_true_eq]
      intro he
      exact h (he ▸ List.mem_map_of_mem Prod.fst hp)

theorem DF.getCol_setCol_ne (df : DF) (c c2 : String) (vs : List Cell)
    (h : c2 ≠ c) : (df.setCol c vs).getCol c2 = df.getCol c2 := by
  unfold DF.setCol
  by_cases hm : c ∈ df.names
  · rw [if_pos hm]
    show Option.map Prod.snd ((df.cols.map (substF c vs)).find? (fun p => p.1 = c2)) = _
    rw [find?_substF_ne c c2 vs h df.cols]
    rfl
  · rw [if_neg hm]
    show Option.map Prod.snd ((df.cols ++ [(c, vs)]).find? (fun p => p.1 = c2)) = _
    rw [List.find?_append]
    cases hf : df.cols.find? (fun p => p.1 = c2) with
    | some p => simp [DF.getCol, hf]
    | none =>
      rw [List.find?_cons_of_neg _ (by simpa using fun he => h he.symm)]
      simp [DF.getCol, hf]

theorem DF.names_setCol_mem (df : DF) (c : String) (vs : List Cell)
    (h : c ∈ df.names) : (df.setCol c vs).names = df.names := by
  unfold DF.setCol
  rw [if_pos h]
  show (df.cols.map (substF c vs)).map Prod.fst = df.cols.map Prod.fst
  rw [List.map_map]
  exact List.map_congr_left (fun p _ => substF_fst c vs p)

theorem DF.names_setCol_not_mem (df : DF) (c : String) (vs : List Cell)
    (h : c ∉ df.names) : (df.setCol c vs).names = df.names ++ [c] := by
  unfold DF.setCol
  rw [if_neg h]
  show (df.cols ++ [(c, vs)]).map Prod.fst = df.cols.map Prod.fst ++ [c]
  rw [List.map_append]
  rfl

theorem DF.names_setCol_nodup (df : DF) (c : String) (vs : List Cell)
    (h : df.names.Nodup) : (df.setCol c vs).names.Nodup := by
  by_cases hm : c ∈ df.names
  · rw [DF.names_setCol_mem df c vs hm]; exact h
  · rw [DF.names_setCol_not_mem df c vs hm]
    simpa [List.nodup_append] using ⟨h, hm⟩

theorem DF.setCol_same (df : DF) (c : String) (vs : List Cell)
    (hnd : df.names.Nodup) (h : df.getCol c = some vs) : df.setCol c vs = df := by
  have hm : c ∈ df.names := df.mem_names_of_getCol c vs h
  unfold DF.setCol
  rw [if_pos hm]
  unfold DF.getCol at h
  cases hf : df.cols.find? (fun p => p.1 = c) with
  | none => rw [hf] at h; exact absurd h (by simp)
  | some p =>
    rw [hf] at h
    have hc : p.1 = c := by simpa using List.find?_some hf
    have hv : p.2 = vs := by simpa using h
    have hp : p = (c, vs) := by
      cases p
      simp only at hc hv
      rw [hc, hv]
    have heq : df.cols.map (substF c vs) = df.cols :=
      map_substF_same c vs df.cols hnd (hp ▸ hf)
    show DF.mk (df.cols.map (substF c vs)) = df
    rw [heq]

theorem DF.getCol_length (df : DF) (c : String) (vs : List Cell)
    (hwf : df.wf) (h : df.getCol c = some vs) : vs.length = df.nrows := by
  unfold DF.getCol at h
  cases hf : df.cols.find? (fun p => p.1 = c) with
  | none => rw [hf] at h; exact absurd h (by simp)
  | some p =>
    rw [hf] at h
    have hmem := List.mem_of_find?_eq_some hf
    have hv : p.2 = vs := by simpa using h
    exact hv ▸ hwf p hmem

theorem DF.nrows_setCol (df : DF) (c : String) (vs : List Cell)
    (hlen : vs.length = df.nrows) : (df.setCol c vs).nrows = df.nrows := by
  unfold DF.setCol
  by_cases hm : c ∈ df.names
  · rw [if_pos hm]
    show DF.nrows (DF.mk (df.cols.map (substF c vs))) = df.nrows
    cases df with
    | mk cols =>
      cases cols with
      | nil => rfl
      | cons q rest =>
        show (substF c vs q).2.length = q.2.length
        by_cases hq : q.1 = c
        · have : (substF c vs q).2 = vs := by simp [substF, hq]
          rw [this]
          exact hlen
        · simp [substF, hq]
  · rw [if_neg hm]
    cases df with
    | mk cols =>
      cases cols with
      | nil => exact hlen
      | cons q rest => rfl

theorem DF.wf_setCol (df : DF) (c : String) (vs : List Cell)
    (hwf : df.wf) (hlen : vs.length = df.nrows) : (df.setCol c vs).wf := by
  intro p hp
  rw [DF.nrows_setCol df c vs hlen]
  unfold DF.setCol at hp
  by_cases hm : c ∈ df.names
  · rw [if_pos hm] at hp
    obtain ⟨q, hq, hpq⟩ := List.mem_map.mp hp
    by_cases hqc : q.1 = c
    · have : p = (q.1, vs) := by simpa [substF, hqc] using hpq.symm
      rw [this]
      exact hlen
    · have : p = q := by simpa [substF, hqc] using hpq.symm
      exact this ▸ hwf q hq
  · rw [if_neg hm] at hp
    simp only [List.mem_append] at hp
    rcases hp with hp | hp
    · exact hwf p hp
    · simp only [List.mem_singleton] at hp
      rw [hp]
      exact hlen

/-! ## Claim C1 -/

/-- **C1** (counterexample). The claim says `calculate_statistics` on an
empty series returns `count = 0`; in fact the code builds the degenerate
dictionary as `np.nan` for *every* statistic, `count` included, so on the
empty series the count is NaN and not 0. -/
theorem c1_counterexample :
    (calculate_statistics []).count = .nan ∧ (calculate_statistics []).count ≠ .q 0 := by
  decide

/-- **C1** (amended): for every series that is empty or contains only null
values, `calculate_statistics` returns every statistic null (NaN) —
including `count`, which is NaN rather than 0. -/
theorem c1_empty_or_allnull_all_nan (series : List (Option ℚ))
    (h : series.filterMap id = []) :
    calculate_statistics series = statsAllNan :=
  calc_stats_allnull series h

/-- Witness for `c1_empty_or_allnull_all_nan` at the concrete all-null
series `[None, None]`. -/
theorem c1_empty_or_allnull_all_nan_witness :
    ([none, none] : List (Option ℚ)).filterMap id = [] ∧
      calculate_statistics [none, none] = statsAllNan :=
  ⟨rfl, c1_empty_or_allnull_all_nan [none, none] rfl⟩

/-! ## Claim C4 -/

/-- **C4**: for every series with exactly one valid (non-null) value `v`,
`calculate_statistics` returns count = 1, min = max = mean = median = `v`,
std = 0 (not null), and all percentiles equal to `v`. -/
theorem c4_single_value_stats (series : List (Option ℚ)) (v : ℚ)
    (h : series.filterMap id = [v]) :
    calculate_statistics series =
      { count := .q 1, min := .q v, max := .q v, mean := .q v, median := .q v,
        std := .q 0, p25 := .q v, p75 := .q v, p90 := .q v, p95 := .q v } :=
  calc_stats_single series v h

/-- Witness for `c4_single_value_stats` at the series `[NaN, 5]`. -/
theorem c4_single_value_stats_witness :
    ([none, some 5] : List (Option ℚ)).filterMap id = [5] ∧
      calculate_statistics [none, some 5] =
        { count := .q 1, min := .q 5, max := .q 5, mean := .q 5, median := .q 5,
          std := .q 0, p25 := .q 5, p75 := .q 5, p90 := .q 5, p95 := .q 5 } :=
  ⟨rfl, c4_single_value_stats [none, some 5] 5 rfl⟩

/-! ## Claim C9 -/

/-- **C9**: `load_and_prepare_data` returns a new derived table and leaves
the caller's table unchanged — the call's effect on the caller's object is
the identity, because the function works on `data_source.copy()`, a copy
that is value-equal to the input. -/
theorem c9_input_table_unmodified (dateCol quantityCol : String) (t : DF) :
    (load_and_prepare_data_effect dateCol quantityCol t).callerTable = t ∧
      t.copy = t :=
  ⟨rfl, DF.copy_eq t⟩

/-! ## Claim C3 -/

/-- **C3** (counterexample). The claim says a missing invoice column is
detected in the period deriver; on the concrete table with date and
quantity columns but no invoice column, `load_and_prepare_data` succeeds,
so the missing invoice column is not surfaced there. -/
theorem c3_counterexample :
    "Pedido" ∉ sampleNoInvoice.names ∧
      load_and_prepare_data "Fecha" "Cantidad" sampleNoInvoice =
        .ok ⟨[("Fecha", [.date ⟨2024, 10, 7⟩]), ("Cantidad", [.num 1]),
              ("Year", [.num 2024]), ("Month", [.num 10]),
              ("Day", [.pydate ⟨2024, 10, 7⟩]), ("Weekday", [.str "Monday"]),
              ("Year_Week", [.str "2024-W40"]), ("Year_Quarter", [.str "2024Q4"])]⟩ :=
  ⟨by decide, by decide⟩

/-- **C3** (amended): a missing date or quantity column raises a
`KeyError` naming that column already inside the period deriver; a
missing invoice or product column is *not* detected by the period
deriver — it raises a `KeyError` later, in the dataset overview of
`comprehensive_analysis` (still before any aggregation result is
produced, which is where the overview sits in the source). -/
theorem c3_missing_column_errors (dCol qCol iCol pCol : String) (t df : DF) :
    (dCol ∉ t.names → load_and_prepare_data dCol qCol t = .error (.keyError dCol)) ∧
    (dCol ∈ t.names → qCol ∉ t.names → qCol ≠ dCol →
      load_and_prepare_data dCol qCol t = .error (.keyError qCol)) ∧
    (∀ ds, df.getCol dCol = some ds → datetimeCol ds = true → iCol ∉ df.names →
      ∀ cc, comprehensive_analysis dCol iCol pCol qCol df cc =
        .error (.keyError iCol)) ∧
    (∀ ds, df.getCol dCol = some ds → datetimeCol ds = true → iCol ∈ df.names →
      pCol ∉ df.names →
      ∀ cc, comprehensive_analysis dCol iCol pCol qCol df cc =
        .error (.keyError pCol)) := by
  refine ⟨fun h => ?_, fun hd hq hne => ?_, fun ds hds hdt hi cc => ?_,
    fun ds hds hdt hi hp cc => ?_⟩
  · simp only [load_and_prepare_data, DF.copy_eq, DF.getCol_eq_none t dCol h]
  · obtain ⟨dvs, hdvs⟩ := DF.getCol_isSome t dCol hd
    simp only [load_and_prepare_data, DF.copy_eq, hdvs,
      DF.getCol_setCol_ne t dCol qCol (dvs.map toDatetime) hne,
      DF.getCol_eq_none t qCol hq]
  · simp only [comprehensive_analysis, DF.getColE, hds, minDateCol, maxDateCol,
      hdt, if_true, DF.getCol_eq_none df iCol hi, except_ok_bind,
      except_error_bind]
  · obtain ⟨ivs, hivs⟩ := DF.getCol_isSome df iCol hi
    simp only [comprehensive_analysis, DF.getColE, hds, minDateCol, maxDateCol,
      hdt, if_true, hivs, DF.getCol_eq_none df pCol hp, except_ok_bind,
      except_error_bind]

/-- Witness for `c3_missing_column_errors` at concrete tables: a missing
date column, a missing quantity column, a missing invoice column (caught
only in `comprehensive_analysis`), and a missing product column. -/
theorem c3_missing_column_errors_witness :
    load_and_prepare_data "Nada" "Cantidad" sampleNoInvoice =
        .error (.keyError "Nada") ∧
    load_and_prepare_data "Fecha" "Nada" sampleNoInvoice =
        .error (.keyError "Nada") ∧
    comprehensive_analysis "Fecha" "Pedido" "Material" "Cantidad"
        sampleOnlyDate none = .error (.keyError "Pedido") ∧
    comprehensive_analysis "Fecha" "Pedido" "Material" "Cantidad"
        sampleDateInvoice none = .error (.keyError "Material") :=
  ⟨(c3_missing_column_errors "Nada" "Cantidad" "Pedido" "Material"
      sampleNoInvoice sampleOnlyDate).1 (by decide),
   (c3_missing_column_errors "Fecha" "Nada" "Pedido" "Material"
      sampleNoInvoice sampleOnlyDate).2.1 (by decide) (by decide) (by decide),
   (c3_missing_column_errors "Fecha" "Cantidad" "Pedido" "Material"
      sampleNoInvoice sampleOnlyDate).2.2.1 ([Cell.date ⟨2024, 10, 7⟩]) rfl
      (by decide) (by decide) none,
   (c3_missing_column_errors "Fecha" "Cantidad" "Pedido" "Material"
      sampleNoInvoice sampleDateInvoice).2.2.2 ([Cell.date ⟨2024, 10, 7⟩]) rfl
      (by decide) (by decide) (by decide) none⟩

/-! ## Claim C6 -/

theorem sampleDerived_eq :
    load_and_prepare_data "Fecha" "Cantidad" sampleTable = .ok sampleDerived := by
  decide

/-- **C6**: for every table carrying the pipeline's columns and every
category column name `c` that is not a column of the table,
`comprehensive_analysis` completes without error and its result set
contains no `Category_Analysis` entry at all. -/
theorem c6_missing_category_column_skipped
    (dCol iCol pCol qCol c : String) (df : DF) (ds qs : List Cell)
    (hds : df.getCol dCol = some ds) (hdt : datetimeCol ds = true)
    (hqs : df.getCol qCol = some qs) (hqn : numericCol qs = true)
    (hi : iCol ∈ df.names) (hp : pCol ∈ df.names)
    (hday : "Day" ∈ df.names) (hweek : "Year_Week" ∈ df.names)
    (hmonth : "Month" ∈ df.names) (hwd : "Weekday" ∈ df.names)
    (hquarter : "Year_Quarter" ∈ df.names)
    (hc : c ∉ df.names) :
    ∃ a, comprehensive_analysis dCol iCol pCol qCol df (some c) = .ok a ∧
      a.categoryAnalysis = none := by
  obtain ⟨ivs, hivs⟩ := DF.getCol_isSome df iCol hi
  obtain ⟨pvs, hpvs⟩ := DF.getCol_isSome df pCol hp
  obtain ⟨dayvs, hdayvs⟩ := DF.getCol_isSome df "Day" hday
  obtain ⟨weekvs, hweekvs⟩ := DF.getCol_isSome df "Year_Week" hweek
  obtain ⟨monthvs, hmonthvs⟩ := DF.getCol_isSome df "Month" hmonth
  obtain ⟨wdvs, hwdvs⟩ := DF.getCol_isSome df "Weekday" hwd
  obtain ⟨quartervs, hquartervs⟩ := DF.getCol_isSome df "Year_Quarter" hquarter
  simp only [comprehensive_analysis, analyze_by_period,
    calculate_weekday_statistics, DF.getColE, hds, hivs, hpvs, hqs, hdayvs,
    hweekvs, hmonthvs, hwdvs, hquartervs, minDateCol, maxDateCol,
    sumNumericCol, hdt, hqn, if_true, hc, false_and, and_false, if_false,
    except_ok_bind, except_error_bind, except_pure_bind]
  exact ⟨_, rfl, rfl⟩

/-- Witness for `c6_missing_category_column_skipped` at the concrete
derived table `sampleDerived` with the absent category column `Marca`. -/
theorem c6_missing_category_column_skipped_witness :
    ∃ a, comprehensive_analysis "Fecha" "Pedido" "Material" "Cantidad"
        sampleDerived (some "Marca") = .ok a ∧ a.categoryAnalysis = none :=
  c6_missing_category_column_skipped "Fecha" "Pedido" "Material" "Cantidad"
    "Marca" sampleDerived _ _ rfl (by decide) rfl (by decide) (by decide)
    (by decide) (by decide) (by decide) (by decide) (by decide) (by decide)
    (by decide)

/-! ## Claim C2 -/

/-- **C2** (counterexample). The claim says degenerate inputs — the empty
table among them — are handled by policy and never by raising; on the
concrete empty table, `comprehensive_analysis` still succeeds, but the
summary sheet of the report assembly raises
(`NaTType does not support strftime` while formatting the date range), so
the pipeline does raise on an empty table. -/
theorem c2_counterexample :
    comprehensive_analysis "Fecha" "Pedido" "Material" "Cantidad" sampleEmpty
        none = .ok emptyAnalyses ∧
      export_summary_rows "Fecha" "Pedido" "Material" "Cantidad" sampleEmpty
        emptyAnalyses "2026-10-12 00:00:00" = .error .natStrftime := by
  decide

/-- **C2** (amended): degenerate series follow the explicit policy without
raising — an empty or all-null series yields the all-NaN statistics and a
single-value series the policy values — and `comprehensive_analysis`
completes without error on an empty table; but `export_analysis_to_excel`
raises on an empty table (the summary sheet formats the NaT date range
with `strftime`), so the never-raises policy fails for the empty-table
degenerate input during report assembly. -/
theorem c2_degenerate_inputs (series : List (Option ℚ)) (v : ℚ)
    (dCol iCol pCol qCol : String) (df : DF) :
    (series.filterMap id = [] → calculate_statistics series = statsAllNan) ∧
    (series.filterMap id = [v] → calculate_statistics series = statsSingle v) ∧
    (df.wf → df.nrows = 0 → dCol ∈ df.names → iCol ∈ df.names →
      pCol ∈ df.names → qCol ∈ df.names → "Day" ∈ df.names →
      "Year_Week" ∈ df.names → "Month" ∈ df.names → "Weekday" ∈ df.names →
      "Year_Quarter" ∈ df.names →
      (∃ a, comprehensive_analysis dCol iCol pCol qCol df none = .ok a) ∧
      (∀ a gen, export_summary_rows dCol iCol pCol qCol df a gen =
        .error .natStrftime)) := by
  refine ⟨calc_stats_allnull series, calc_stats_single series v,
    fun hwf h0 hd hi hp hq hday hweek hmonth hwd hquarter => ?_⟩
  have get0 : ∀ c, c ∈ df.names → df.getCol c = some [] := by
    intro c hcm
    obtain ⟨vs, hvs⟩ := DF.getCol_isSome df c hcm
    have hl := DF.getCol_length df c vs hwf hvs
    rw [h0, List.length_eq_zero] at hl
    rw [hl] at hvs
    exact hvs
  constructor
  · simp only [comprehensive_analysis, analyze_by_period,
      calculate_weekday_statistics, DF.getColE, get0 dCol hd, get0 iCol hi,
      get0 pCol hp, get0 qCol hq, get0 "Day" hday, get0 "Year_Week" hweek,
      get0 "Month" hmonth, get0 "Weekday" hwd, get0 "Year_Quarter" hquarter,
      minDateCol, maxDateCol, sumNumericCol, datetimeCol, numericCol,
      List.all_nil, if_true, List.filterMap_nil, except_ok_bind,
      except_pure_bind]
    exact ⟨_, rfl⟩
  · intro a gen
    simp only [export_summary_rows, DF.getColE, get0 dCol hd, minDateCol,
      datetimeCol, List.all_nil, if_true, List.filterMap_nil, strftimeIso,
      except_ok_bind, except_error_bind]

/-- Witness for `c2_degenerate_inputs`: the all-null series `[NaN]`, the
single-value series `[7]`, and the concrete empty table `sampleEmpty`. -/
theorem c2_degenerate_inputs_witness :
    calculate_statistics [none] = statsAllNan ∧
    calculate_statistics [some 7] = statsSingle 7 ∧
    (∃ a, comprehensive_analysis "Fecha" "Pedido" "Material" "Cantidad"
      sampleEmpty none = .ok a) ∧
    export_summary_rows "Fecha" "Pedido" "Material" "Cantidad" sampleEmpty
      emptyAnalyses "2026-10-12 00:00:00" = .error .natStrftime := by
  have h := c2_degenerate_inputs [none] 7 "Fecha" "Pedido" "Material"
    "Cantidad" sampleEmpty
  have h2 := c2_degenerate_inputs [some 7] 7 "Fecha" "Pedido" "Material"
    "Cantidad" sampleEmpty
  have h3 := h.2.2 (by unfold DF.wf; decide) (by decide) (by decide)
    (by decide) (by decide)
    (by decide) (by decide) (by decide) (by decide) (by decide) (by decide)
  exact ⟨h.1 rfl, h2.2.1 rfl, h3.1,
    h3.2 emptyAnalyses "2026-10-12 00:00:00"⟩

/-! ## Claim C10 -/

theorem padZeroes_one_digit (d : Nat) (h : d < 10) :
    padZeroes 1 (toString d) = toString d := by
  interval_cases d <;> rfl

theorem fmtFixed_one_eq (q : ℚ) :
    fmtFixed 1 q = (if rndHalfEven (q * 10) < 0 then "-" else "") ++
      toString ((rndHalfEven (q * 10)).natAbs / 10) ++ "." ++
      toString ((rndHalfEven (q * 10)).natAbs % 10) := by
  simp only [fmtFixed, pow_one, one_ne_zero, if_false]
  rw [padZeroes_one_digit _ (Nat.mod_lt _ (by norm_num))]

theorem fmtFixed_zero_eq (q : ℚ) :
    fmtFixed 0 q =
      (if rndHalfEven q < 0 then "-" else "") ++ toString (rndHalfEven q).natAbs := by
  simp [fmtFixed]

theorem fmtFixed_one_shape (q : ℚ) : oneDecimalStr (fmtFixed 1 q) := by
  refine Or.inr ⟨if rndHalfEven (q * 10) < 0 then "-" else "",
    (rndHalfEven (q * 10)).natAbs / 10, (rndHalfEven (q * 10)).natAbs % 10,
    ?_, Nat.mod_lt _ (by norm_num), fmtFixed_one_eq q⟩
  by_cases h : rndHalfEven (q * 10) < 0 <;> simp [h]

theorem fmtFixed_zero_shape (q : ℚ) : zeroDecimalStr (fmtFixed 0 q) := by
  refine Or.inr ⟨if rndHalfEven q < 0 then "-" else "",
    (rndHalfEven q).natAbs, ?_, fmtFixed_zero_eq q⟩
  by_cases h : rndHalfEven q < 0 <;> simp [h]

theorem fmtOpt_one_shape (o : Option ℚ) : oneDecimalStr (fmtOpt 1 o) := by
  cases o with
  | none => exact Or.inl rfl
  | some q => exact fmtFixed_one_shape q

theorem fmtOpt_zero_shape (o : Option ℚ) : zeroDecimalStr (fmtOpt 0 o) := by
  cases o with
  | none => exact Or.inl rfl
  | some q => exact fmtFixed_zero_shape q

/-- **C10**: the statistic values of the daily and weekday statistics
tables are decimal-formatted strings — means formatted with one decimal
place, maxima/minima/percentiles with zero decimals — and only the
`Days Analyzed` and `Days_Count` entries are numbers. -/
theorem c10_statistics_are_formatted_strings (daily : List PeriodRow)
    (quantityCol : String) (df : DF) (l : List WRow)
    (h : calculate_weekday_statistics quantityCol df = .ok l) :
    (∃ s1 s2 s3 s4 s5 s6 s7 s8 s9 s10 : String,
      calculate_daily_statistics daily =
        [("Days Analyzed", .num daily.length),
         ("Avg Lines per Day", .str s1), ("Max Lines per Day", .str s2),
         ("Min Lines per Day", .str s3), ("Lines 75th Percentile", .str s4),
         ("Lines 90th Percentile", .str s5), ("Avg Units per Day", .str s6),
         ("Max Units per Day", .str s7), ("Min Units per Day", .str s8),
         ("Units 75th Percentile", .str s9),
         ("Units 90th Percentile", .str s10)] ∧
      oneDecimalStr s1 ∧ zeroDecimalStr s2 ∧ zeroDecimalStr s3 ∧
      zeroDecimalStr s4 ∧ zeroDecimalStr s5 ∧ oneDecimalStr s6 ∧
      zeroDecimalStr s7 ∧ zeroDecimalStr s8 ∧ zeroDecimalStr s9 ∧
      zeroDecimalStr s10) ∧
    (∀ r ∈ l, oneDecimalStr r.avgUnits ∧ zeroDecimalStr r.p90Units) := by
  constructor
  · exact ⟨_, _, _, _, _, _, _, _, _, _, rfl, fmtOpt_one_shape _,
      fmtOpt_zero_shape _, fmtOpt_zero_shape _, fmtOpt_zero_shape _,
      fmtOpt_zero_shape _, fmtOpt_one_shape _, fmtOpt_zero_shape _,
      fmtOpt_zero_shape _, fmtOpt_zero_shape _, fmtOpt_zero_shape _⟩
  · intro r hr
    unfold calculate_weekday_statistics at h
    cases hw : df.getCol "Weekday" with
    | none =>
      simp only [DF.getColE, hw, except_error_bind, except_ok_bind] at h
      exact absurd h (by simp)
    | some ws =>
      cases hd : df.getCol "Day" with
      | none =>
        simp only [DF.getColE, hw, hd, except_error_bind, except_ok_bind] at h
        exact absurd h (by simp)
      | some ds =>
        cases hq : df.getCol quantityCol with
        | none =>
          simp only [DF.getColE, hw, hd, hq, except_error_bind,
            except_ok_bind] at h
          exact absurd h (by simp)
        | some qs =>
          simp only [DF.getColE, hw, hd, hq, except_ok_bind] at h
          have hl := (Except.ok.inj h).symm
          obtain ⟨w, _, hfw⟩ := List.mem_filterMap.mp (hl ▸ hr)
          simp only at hfw
          split_ifs at hfw with hcond
          obtain rfl : _ = r := Option.some.inj hfw
          exact ⟨fmtOpt_one_shape _, fmtOpt_zero_shape _⟩

/-- Witness for `c10_statistics_are_formatted_strings` at the empty daily
summary and the weekday statistics of the concrete `sampleDerived`. -/
theorem c10_statistics_are_formatted_strings_witness :
    oneDecimalStr "7.5" ∧ zeroDecimalStr "8" := by
  have h := c10_statistics_are_formatted_strings [] "Cantidad" sampleDerived
    [⟨"Monday", "7.5", "8", 2⟩, ⟨"Tuesday", "0.0", "0", 1⟩] (by decide)
  exact h.2 ⟨"Monday", "7.5", "8", 2⟩ (by simp)

/-! ## Claim C7: idempotence of the period deriver -/

theorem toDatetime_toDatetime (c : Cell) : toDatetime (toDatetime c) = toDatetime c := by
  cases c
  case str s => cases h : parseDate s <;> simp [toDatetime, h]
  all_goals simp [toDatetime]

theorem toDatetime_map_idem (l : List Cell) :
    (l.map toDatetime).map toDatetime = l.map toDatetime := by
  rw [List.map_map]
  exact List.map_congr_left (fun c _ => toDatetime_toDatetime c)

theorem toNumeric_toNumeric (c : Cell) : toNumeric (toNumeric c) = toNumeric c := by
  cases c
  case str s => cases h : parseNum s <;> simp [toNumeric, h]
  all_goals simp [toNumeric]

theorem toNumeric_map_idem (l : List Cell) :
    (l.map toNumeric).map toNumeric = l.map toNumeric := by
  rw [List.map_map]
  exact List.map_congr_left (fun c _ => toNumeric_toNumeric c)

theorem toDatetime_datey (c : Cell) :
    (toDatetime c).isDate = true ∨ toDatetime c = .nat := by
  cases c
  case str s => cases h : parseDate s <;> simp [toDatetime, h, Cell.isDate]
  all_goals simp [toDatetime, Cell.isDate]

theorem datetimeCol_map_toDatetime (l : List Cell) :
    datetimeCol (l.map toDatetime) = true := by
  simp only [datetimeCol, List.all_map, List.all_eq_true]
  intro c _
  rcases toDatetime_datey c with h | h <;> simp [h]

theorem deriveChain_getCol_not_mem (dCol m : String)
    (specs : List (String × (Cell → Cell))) (hm : ∀ spec ∈ specs, m ≠ spec.1) :
    ∀ df df2 : DF, deriveChain dCol specs df = .ok df2 →
      df2.getCol m = df.getCol m := by
  induction specs with
  | nil => intro df df2 h; cases h; rfl
  | cons spec rest ih =>
    intro df df2 h
    obtain ⟨n, f⟩ := spec
    cases hvs : df.getCol dCol with
    | none => simp [deriveChain, deriveStep, hvs] at h
    | some vs =>
      by_cases hdt : datetimeCol vs = true
      · simp only [deriveChain, deriveStep, hvs, hdt, if_true] at h
        rw [ih (fun s hs => hm s (List.mem_cons_of_mem _ hs)) _ _ h]
        exact DF.getCol_setCol_ne df n m (vs.map f)
          (hm (n, f) (List.mem_cons_self _ _))
      · simp [deriveChain, deriveStep, hvs, hdt] at h

theorem deriveChain_nodup (dCol : String)
    (specs : List (String × (Cell → Cell))) :
    ∀ df df2 : DF, df.names.Nodup → deriveChain dCol specs df = .ok df2 →
      df2.names.Nodup := by
  induction specs with
  | nil => intro df df2 hnd h; cases h; exact hnd
  | cons spec rest ih =>
    intro df df2 hnd h
    obtain ⟨n, f⟩ := spec
    cases hvs : df.getCol dCol with
    | none => simp [deriveChain, deriveStep, hvs] at h
    | some vs =>
      by_cases hdt : datetimeCol vs = true
      · simp only [deriveChain, deriveStep, hvs, hdt, if_true] at h
        exact ih _ _ (DF.names_setCol_nodup df n (vs.map f) hnd) h
      · simp [deriveChain, deriveStep, hvs, hdt] at h

theorem deriveChain_getCol_mem (dCol : String)
    (specs : List (String × (Cell → Cell)))
    (hnd : (specs.map Prod.fst).Nodup) (hdm : dCol ∉ specs.map Prod.fst) :
    ∀ df df2 : DF, deriveChain dCol specs df = .ok df2 →
      ∀ p ∈ specs, ∃ vs, df.getCol dCol = some vs ∧
        df2.getCol p.1 = some (vs.map p.2) := by
  induction specs with
  | nil => intro df df2 _ p hp; cases hp
  | cons spec rest ih =>
    intro df df2 h p hp
    obtain ⟨n, f⟩ := spec
    rw [List.map_cons] at hnd hdm
    obtain ⟨hn_rest, hnd_rest⟩ := List.nodup_cons.mp hnd
    have hd_ne_n : dCol ≠ n := fun he => hdm (he ▸ List.mem_cons_self _ _)
    have hdm_rest : dCol ∉ rest.map Prod.fst :=
      fun he => hdm (List.mem_cons_of_mem _ he)
    cases hvs : df.getCol dCol with
    | none => simp [deriveChain, deriveStep, hvs] at h
    | some vs =>
      by_cases hdt : datetimeCol vs = true
      · simp only [deriveChain, deriveStep, hvs, hdt, if_true] at h
        rcases List.mem_cons.mp hp with hp1 | hp1
        · refine ⟨vs, rfl, ?_⟩
          rw [hp1]
          have hpres : ∀ s ∈ rest, n ≠ s.1 := by
            intro s hs he
            exact hn_rest (by rw [he]; exact List.mem_map.mpr ⟨s, hs, rfl⟩)
          rw [deriveChain_getCol_not_mem dCol n rest hpres _ _ h]
          exact DF.getCol_setCol_self df n (vs.map f)
        · obtain ⟨vs2, hvs2, hcol⟩ := ih hnd_rest hdm_rest _ _ h p hp1
          rw [DF.getCol_setCol_ne df n dCol (vs.map f) hd_ne_n, hvs] at hvs2
          refine ⟨vs, rfl, ?_⟩
          rw [hcol, Option.some.inj hvs2]
      · simp [deriveChain, deriveStep, hvs, hdt] at h

theorem deriveChain_stable (dCol : String)
    (specs : List (String × (Cell → Cell)))
    (hnd_specs : (specs.map Prod.fst).Nodup) (hdm : dCol ∉ specs.map Prod.fst) :
    ∀ df df2 : DF, df.names.Nodup → deriveChain dCol specs df = .ok df2 →
      deriveChain dCol specs df2 = .ok df2 := by
  induction specs with
  | nil => intro df df2 _ h; cases h; rfl
  | cons spec rest ih =>
    intro df df2 hnd h
    obtain ⟨n, f⟩ := spec
    rw [List.map_cons] at hnd_specs hdm
    obtain ⟨hn_rest, hnd_rest⟩ := List.nodup_cons.mp hnd_specs
    have hd_ne_n : dCol ≠ n := fun he => hdm (he ▸ List.mem_cons_self _ _)
    have hdm_rest : dCol ∉ rest.map Prod.fst :=
      fun he => hdm (List.mem_cons_of_mem _ he)
    have hpres : ∀ s ∈ rest, n ≠ s.1 := by
      intro s hs he
      exact hn_rest (by rw [he]; exact List.mem_map.mpr ⟨s, hs, rfl⟩)
    cases hvs : df.getCol dCol with
    | none => simp [deriveChain, deriveStep, hvs] at h
    | some vs =>
      by_cases hdt : datetimeCol vs = true
      · simp only [deriveChain, deriveStep, hvs, hdt, if_true] at h
        have hnda : (df.setCol n (vs.map f)).names.Nodup :=
          DF.names_setCol_nodup df n (vs.map f) hnd
        have hnd2 : df2.names.Nodup := deriveChain_nodup dCol rest _ _ hnda h
        have hg_d : df2.getCol dCol = some vs := by
          rw [deriveChain_getCol_not_mem dCol dCol rest
            (fun s hs he =>
              hdm_rest (by rw [he]; exact List.mem_map.mpr ⟨s, hs, rfl⟩)) _ _ h,
            DF.getCol_setCol_ne df n dCol (vs.map f) hd_ne_n, hvs]
        have hg_n : df2.getCol n = some (vs.map f) := by
          rw [deriveChain_getCol_not_mem dCol n rest hpres _ _ h]
          exact DF.getCol_setCol_self df n (vs.map f)
        simp only [deriveChain, deriveStep, hg_d, hdt, if_true,
          DF.setCol_same df2 n (vs.map f) hnd2 hg_n]
        exact ih hnd_rest hdm_rest _ _ hnda h
      · simp [deriveChain, deriveStep, hvs, hdt] at h

/-- **C7**: the period deriver is idempotent — for a table with distinct
column labels and a column configuration that does not collide with the
derived column names, a second application of `load_and_prepare_data` to
its own output returns that output unchanged: the date/quantity coercions
and all six derived columns are reproduced identically. -/
theorem c7_load_and_prepare_idempotent (dCol qCol : String) (t df1 : DF)
    (hnd : t.names.Nodup) (hdq : dCol ≠ qCol)
    (hd : dCol ∉ derivedNames) (hq : qCol ∉ derivedNames)
    (h : load_and_prepare_data dCol qCol t = .ok df1) :
    load_and_prepare_data dCol qCol df1 = .ok df1 := by
  rw [load_and_prepare_data, DF.copy_eq] at h
  cases hdvs : t.getCol dCol with
  | none => rw [hdvs] at h; exact absurd h (by simp)
  | some dvs =>
    rw [hdvs] at h
    simp only at h
    cases hqvs : (t.setCol dCol (dvs.map toDatetime)).getCol qCol with
    | none => rw [hqvs] at h; exact absurd h (by simp)
    | some qvs =>
      rw [hqvs] at h
      simp only at h
      have hnd_b : ((t.setCol dCol (dvs.map toDatetime)).setCol qCol
          (qvs.map toNumeric)).names.Nodup :=
        DF.names_setCol_nodup _ _ _ (DF.names_setCol_nodup _ _ _ hnd)
      have hnd1 : df1.names.Nodup :=
        deriveChain_nodup dCol derivedSpecs _ _ hnd_b h
      have hnotmem : ∀ m, m ∉ derivedNames →
          ∀ s ∈ derivedSpecs, m ≠ s.1 := by
        intro m hm s hs he
        exact hm (by rw [he]; exact List.mem_map.mpr ⟨s, hs, rfl⟩)
      have hg_d : df1.getCol dCol = some (dvs.map toDatetime) := by
        rw [deriveChain_getCol_not_mem dCol dCol derivedSpecs
          (hnotmem dCol hd) _ _ h,
          DF.getCol_setCol_ne _ qCol dCol _ hdq,
          DF.getCol_setCol_self]
      have hg_q : df1.getCol qCol = some (qvs.map toNumeric) := by
        rw [deriveChain_getCol_not_mem dCol qCol derivedSpecs
          (hnotmem qCol hq) _ _ h,
          DF.getCol_setCol_self]
      rw [load_and_prepare_data, DF.copy_eq, hg_d]
      simp only [toDatetime_map_idem,
        DF.setCol_same df1 dCol (dvs.map toDatetime) hnd1 hg_d, hg_q,
        toNumeric_map_idem,
        DF.setCol_same df1 qCol (qvs.map toNumeric) hnd1 hg_q]
      exact deriveChain_stable dCol derivedSpecs (by decide) hd _ _ hnd_b h

/-- Witness for `c7_load_and_prepare_idempotent`: the concrete
`sampleTable` and its derived table. -/
theorem c7_load_and_prepare_idempotent_witness :
    load_and_prepare_data "Fecha" "Cantidad" sampleDerived = .ok sampleDerived :=
  c7_load_and_prepare_idempotent "Fecha" "Cantidad" sampleTable sampleDerived
    (by decide) (by decide) (by decide) (by decide) (by decide)

/-! ## Claim C8: conservation of line counts in the daily summary -/

theorem countP_zip_fst (k : Cell) :
    ∀ (ps qs invs : List Cell), qs.length = ps.length → invs.length = ps.length →
      ((ps.zip (qs.zip invs)).countP (fun r => r.1 = k)) =
        ps.countP (fun c => c = k) := by
  intro ps
  induction ps with
  | nil => intro qs invs _ _; rfl
  | cons p ps ih =>
    intro qs invs h1 h2
    cases qs with
    | nil => simp at h1
    | cons q qs =>
      cases invs with
      | nil => simp at h2
      | cons i invs =>
        simp only [List.zip_cons_cons, List.countP_cons]
        rw [ih qs invs (by simpa using h1) (by simpa using h2)]

theorem sum_countP_groupKeys (ps : List Cell) :
    ((groupKeys ps).map (fun k => ps.countP (fun c => c = k))).sum
      = (ps.filter (fun c => !c.isNull)).length := by
  have hperm : List.Perm (groupKeys ps)
      ((ps.filter (fun c => !c.isNull)).dedup) :=
    List.perm_insertionSort _ _
  rw [(hperm.map _).sum_eq]
  have hpt : ∀ k ∈ (ps.filter (fun c => !c.isNull)).dedup,
      ps.countP (fun c => c = k) =
        (ps.filter (fun c => !c.isNull)).countP (fun c => c = k) := by
    intro k hk
    have hknn : (!k.isNull) = true :=
      (List.mem_filter.mp (List.mem_dedup.mp hk)).2
    rw [List.countP_filter]
    apply List.countP_congr
    intro c _
    constructor
    · intro hc
      have hck : c = k := by simpa using hc
      simp [hck, hknn]
    · intro hc
      simpa using (Bool.and_elim_left hc)
  rw [List.map_congr_left hpt]
  have : ∀ k, (ps.filter (fun c => !c.isNull)).countP (fun c => c = k) =
      (ps.filter (fun c => !c.isNull)).count k := fun k => rfl
  rw [List.map_congr_left (fun k _ => this k)]
  exact List.sum_map_count_dedup_eq_length _

theorem dtDate_notNull_eq_isDate (x : Cell) : (!(dtDate x).isNull) = x.isDate := by
  cases x <;> rfl

theorem deriveChain_wf (dCol : String) (specs : List (String × (Cell → Cell))) :
    ∀ df df2 : DF, df.wf → deriveChain dCol specs df = .ok df2 →
      df2.wf ∧ df2.nrows = df.nrows := by
  induction specs with
  | nil => intro df df2 hwf h; cases h; exact ⟨hwf, rfl⟩
  | cons spec rest ih =>
    intro df df2 hwf h
    obtain ⟨n, f⟩ := spec
    cases hvs : df.getCol dCol with
    | none => simp [deriveChain, deriveStep, hvs] at h
    | some vs =>
      by_cases hdt : datetimeCol vs = true
      · simp only [deriveChain, deriveStep, hvs, hdt, if_true] at h
        have hlen : (vs.map f).length = df.nrows := by
          rw [List.length_map]
          exact DF.getCol_length df dCol vs hwf hvs
        obtain ⟨hwf2, hnr2⟩ := ih _ _ (DF.wf_setCol df n (vs.map f) hwf hlen) h
        exact ⟨hwf2, by rw [hnr2, DF.nrows_setCol df n (vs.map f) hlen]⟩
      · simp [deriveChain, deriveStep, hvs, hdt] at h

theorem load_wf (dCol qCol : String) (t df : DF) (hwf : t.wf)
    (h : load_and_prepare_data dCol qCol t = .ok df) :
    df.wf ∧ df.nrows = t.nrows := by
  rw [load_and_prepare_data, DF.copy_eq] at h
  cases hdvs : t.getCol dCol with
  | none => rw [hdvs] at h; exact absurd h (by simp)
  | some dvs =>
    rw [hdvs] at h
    simp only at h
    have hlen1 : (dvs.map toDatetime).length = t.nrows := by
      rw [List.length_map]
      exact DF.getCol_length t dCol dvs hwf hdvs
    have hwf1 : (t.setCol dCol (dvs.map toDatetime)).wf :=
      DF.wf_setCol t dCol (dvs.map toDatetime) hwf hlen1
    have hnr1 : (t.setCol dCol (dvs.map toDatetime)).nrows = t.nrows :=
      DF.nrows_setCol t dCol (dvs.map toDatetime) hlen1
    cases hqvs : (t.setCol dCol (dvs.map toDatetime)).getCol qCol with
    | none => rw [hqvs] at h; exact absurd h (by simp)
    | some qvs =>
      rw [hqvs] at h
      simp only at h
      have hlen2 : (qvs.map toNumeric).length =
          (t.setCol dCol (dvs.map toDatetime)).nrows := by
        rw [List.length_map]
        exact DF.getCol_length _ qCol qvs hwf1 hqvs
      obtain ⟨hwf3, hnr3⟩ := deriveChain_wf dCol derivedSpecs _ _
        (DF.wf_setCol _ qCol (qvs.map toNumeric) hwf1 hlen2) h
      refine ⟨hwf3, ?_⟩
      rw [hnr3, DF.nrows_setCol _ qCol (qvs.map toNumeric) hlen2, hnr1]

theorem load_getCol_derived (dCol qCol : String) (t df : DF)
    (hdq : dCol ≠ qCol) (hd : dCol ∉ derivedNames)
    (h : load_and_prepare_data dCol qCol t = .ok df) :
    ∃ dvs, t.getCol dCol = some dvs ∧
      df.getCol dCol = some (dvs.map toDatetime) ∧
      ∀ p ∈ derivedSpecs, df.getCol p.1 = some ((dvs.map toDatetime).map p.2) := by
  rw [load_and_prepare_data, DF.copy_eq] at h
  cases hdvs : t.getCol dCol with
  | none => rw [hdvs] at h; exact absurd h (by simp)
  | some dvs =>
    rw [hdvs] at h
    simp only at h
    cases hqvs : (t.setCol dCol (dvs.map toDatetime)).getCol qCol with
    | none => rw [hqvs] at h; exact absurd h (by simp)
    | some qvs =>
      rw [hqvs] at h
      simp only at h
      have hnotmem : ∀ s ∈ derivedSpecs, dCol ≠ s.1 := by
        intro s hs he
        exact hd (by rw [he]; exact List.mem_map.mpr ⟨s, hs, rfl⟩)
      have hg_b : ((t.setCol dCol (dvs.map toDatetime)).setCol qCol
          (qvs.map toNumeric)).getCol dCol = some (dvs.map toDatetime) := by
        rw [DF.getCol_setCol_ne _ qCol dCol _ hdq, DF.getCol_setCol_self]
      refine ⟨dvs, rfl, ?_, ?_⟩
      · rw [deriveChain_getCol_not_mem dCol dCol derivedSpecs hnotmem _ _ h, hg_b]
      · intro p hp
        obtain ⟨vs2, hvs2, hcol⟩ := deriveChain_getCol_mem dCol derivedSpecs
          (by decide) hd _ _ h p hp
        rw [hg_b] at hvs2
        rw [hcol, Option.some.inj hvs2]

/-- **C8**: for every input table, the `Lines_Total` values of the daily
analysis sum to the number of rows of the derived table whose date is
valid (non-null) — rows with a null `Day` key are excluded from the
grouping, and `Day` is null exactly when the coerced date is. -/
theorem c8_daily_lines_conservation (dCol qCol iCol : String) (t df : DF)
    (daily : List PeriodRow) (hwf : t.wf)
    (hdq : dCol ≠ qCol) (hd : dCol ∉ derivedNames)
    (hload : load_and_prepare_data dCol qCol t = .ok df)
    (hdaily : analyze_by_period qCol iCol df "Day" = .ok daily) :
    (daily.map (fun r => r.linesTotal)).sum =
      ((df.getCol dCol).getD []).countP (fun c => c.isDate) := by
  obtain ⟨dvs, hdvs, hg_d, hderived⟩ :=
    load_getCol_derived dCol qCol t df hdq hd hload
  have hday : df.getCol "Day" = some ((dvs.map toDatetime).map dtDate) :=
    hderived ("Day", dtDate)
      (List.mem_cons_of_mem _ (List.mem_cons_of_mem _ (List.mem_cons_self _ _)))
  obtain ⟨hwfd, _⟩ := load_wf dCol qCol t df hwf hload
  rw [analyze_by_period] at hdaily
  cases hqs : df.getCol qCol with
  | none => simp [DF.getColE, hday, hqs, except_error_bind, except_ok_bind] at hdaily
  | some qs =>
    cases hinvs : df.getCol iCol with
    | none =>
      simp [DF.getColE, hday, hqs, hinvs, except_error_bind,
        except_ok_bind] at hdaily
    | some invs =>
      simp only [DF.getColE, hday, hqs, hinvs, except_ok_bind] at hdaily
      have hrows := (Except.ok.inj hdaily).symm
      have hlen_day : ((dvs.map toDatetime).map dtDate).length = df.nrows :=
        DF.getCol_length df "Day" _ hwfd hday
      have hlen_q : qs.length = ((dvs.map toDatetime).map dtDate).length := by
        rw [hlen_day]
        exact DF.getCol_length df qCol qs hwfd hqs
      have hlen_i : invs.length = ((dvs.map toDatetime).map dtDate).length := by
        rw [hlen_day]
        exact DF.getCol_length df iCol invs hwfd hinvs
      rw [hrows, List.map_map]
      refine Eq.trans ?_ (Eq.trans
        (sum_countP_groupKeys ((dvs.map toDatetime).map dtDate)) ?_)
      · apply congrArg List.sum
        apply List.map_congr_left
        intro k _
        show (List.filter (fun r => decide (r.1 = k))
          (((dvs.map toDatetime).map dtDate).zip (qs.zip invs))).length = _
        rw [← List.countP_eq_length_filter]
        exact countP_zip_fst k _ qs invs hlen_q hlen_i
      · rw [hg_d]
        show (((dvs.map toDatetime).map dtDate).filter
          (fun c => !c.isNull)).length = _
        rw [← List.countP_eq_length_filter, List.countP_map]
        apply List.countP_congr
        intro c _
        rw [Function.comp_apply, dtDate_notNull_eq_isDate]

/-- Witness for `c8_daily_lines_conservation` at the concrete
`sampleTable`: four of its five rows carry a valid date. -/
theorem c8_daily_lines_conservation_witness :
    ∃ daily, analyze_by_period "Cantidad" "Pedido" sampleDerived "Day" =
        .ok daily ∧
      (daily.map (fun r => r.linesTotal)).sum =
        ((sampleDerived.getCol "Fecha").getD []).countP (fun c => c.isDate) := by
  refine ⟨_, rfl, ?_⟩
  exact c8_daily_lines_conservation "Fecha" "Cantidad" "Pedido" sampleTable
    sampleDerived _ (by unfold DF.wf; decide) (by decide) (by decide)
    sampleDerived_eq rfl

/-! ## Claim C5: weekday statistics refine the spec's description -/

theorem zip3_proj :
    ∀ (ws ds qs : List Cell), ds.length = ws.length → qs.length = ws.length →
      (ws.zip (ds.zip qs)).map (fun t => (t.1, t.2.1)) = ws.zip ds := by
  intro ws
  induction ws with
  | nil => intro ds qs _ _; rfl
  | cons w ws ih =>
    intro ds qs h1 h2
    cases ds with
    | nil => simp at h1
    | cons d ds =>
      cases qs with
      | nil => simp at h2
      | cons q qs =>
        simp only [List.zip_cons_cons, List.map_cons]
        rw [ih ds qs (by simpa using h1) (by simpa using h2)]

theorem dedup_filter_fst (w : Cell) :
    ∀ l : List (Cell × Cell),
      ((l.dedup).filter (fun p => p.1 = w)).map Prod.snd
        = ((l.filter (fun p => p.1 = w)).map Prod.snd).dedup := by
  intro l
  induction l with
  | nil => rfl
  | cons a l ih =>
    by_cases ha : a.1 = w
    · by_cases hmem : a ∈ l
      · have hsnd : a.2 ∈ (l.filter (fun p => p.1 = w)).map Prod.snd :=
          List.mem_map.mpr ⟨a, List.mem_filter.mpr ⟨hmem, by simpa using ha⟩, rfl⟩
        rw [List.dedup_cons_of_mem hmem,
          List.filter_cons_of_pos (by simpa using ha), List.map_cons,
          List.dedup_cons_of_mem hsnd, ih]
      · have hsnd : a.2 ∉ (l.filter (fun p => p.1 = w)).map Prod.snd := by
          intro hmem2
          obtain ⟨p, hp, hps⟩ := List.mem_map.mp hmem2
          obtain ⟨hpl, hpw⟩ := List.mem_filter.mp hp
          have hpa : p = a := by
            have hw1 : p.1 = w := by simpa using hpw
            cases p
            cases a
            simp only at hps hw1 ha
            simp [hps, hw1, ha]
          exact hmem (hpa ▸ hpl)
        rw [List.dedup_cons_of_not_mem hmem,
          List.filter_cons_of_pos (by simpa using ha), List.map_cons,
          List.filter_cons_of_pos (by simpa using ha), List.map_cons,
          List.dedup_cons_of_not_mem hsnd, ih]
    · by_cases hmem : a ∈ l
      · rw [List.dedup_cons_of_mem hmem, ih,
          List.filter_cons_of_neg (by simpa using ha)]
      · rw [List.dedup_cons_of_not_mem hmem,
          List.filter_cons_of_neg (by simpa using ha),
          List.filter_cons_of_neg (by simpa using ha), ih]

theorem sumQ_eq_sum (l : List ℚ) : sumQ l = l.sum := rfl

theorem meanQ_perm (l1 l2 : List ℚ) (h : List.Perm l1 l2) :
    meanQ l1 = meanQ l2 := by
  unfold meanQ
  rw [h.length_eq, sumQ_eq_sum, sumQ_eq_sum, h.sum_eq]

theorem quantileQ_perm (p : ℚ) (l1 l2 : List ℚ) (h : List.Perm l1 l2) :
    quantileQ p l1 = quantileQ p l2 := by
  have hsort : l1.insertionSort (· ≤ ·) = l2.insertionSort (· ≤ ·) :=
    List.eq_of_perm_of_sorted
      ((List.perm_insertionSort _ l1).trans
        (h.trans (List.perm_insertionSort _ l2).symm))
      (List.sorted_insertionSort _ _) (List.sorted_insertionSort _ _)
  unfold quantileQ
  rw [h.length_eq, hsort]

theorem calculate_weekday_statistics_eq (quantityCol : String) (df : DF)
    (ws ds qs : List Cell)
    (hw : df.getCol "Weekday" = some ws) (hd : df.getCol "Day" = some ds)
    (hq : df.getCol quantityCol = some qs) :
    calculate_weekday_statistics quantityCol df =
      .ok (weekdaysOrder.filterMap (codeWeekdayRow ws ds qs)) := by
  simp only [calculate_weekday_statistics, codeWeekdayRow, DF.getColE, hw, hd,
    hq, except_ok_bind]
  rfl

theorem codeWeekdayRow_eq_spec (ws ds qs : List Cell) (w : String)
    (hl1 : ds.length = ws.length) (hl2 : qs.length = ws.length) :
    codeWeekdayRow ws ds qs w = specWeekdayRow ws ds qs w := by
  simp only [codeWeekdayRow, specWeekdayRow]
  rw [List.filter_map]
  simp only [List.map_map, List.length_map]
  have hgk : List.Perm (groupKeys2 ws ds) (((ws.zip ds).filter (fun p => !p.1.isNull && !p.2.isNull))).dedup :=
    List.perm_insertionSort _ _
  have hkey : List.Perm (((List.filter
      ((fun e => decide (e.1.1 = Cell.str w)) ∘ fun k =>
      (k, sumCells (List.map (fun t => t.2.2)
        (List.filter (fun t => decide (t.1 = k.1 ∧ t.2.1 = k.2)) (ws.zip (ds.zip qs))))))
      (groupKeys2 ws ds))).map Prod.snd) ((List.map (fun t => t.2.1)
      (List.filter (fun t => decide (t.1 = Cell.str w) && !t.2.1.isNull)
        (ws.zip (ds.zip qs)))).dedup) := by
    have h1 := (hgk.filter ((fun e => decide (e.1.1 = Cell.str w)) ∘ (fun k =>
      (k, sumCells (List.map (fun t => t.2.2)
        (List.filter (fun t => decide (t.1 = k.1 ∧ t.2.1 = k.2)) (ws.zip (ds.zip qs)))))))).map Prod.snd
    have h2 : ((((ws.zip ds).filter (fun p => !p.1.isNull && !p.2.isNull))).dedup.filter
        ((fun e => decide (e.1.1 = Cell.str w)) ∘ (fun k =>
      (k, sumCells (List.map (fun t => t.2.2)
        (List.filter (fun t => decide (t.1 = k.1 ∧ t.2.1 = k.2)) (ws.zip (ds.zip qs))))))))
        = (((ws.zip ds).filter (fun p => !p.1.isNull && !p.2.isNull))).dedup.filter (fun p => p.1 = Cell.str w) :=
      List.filter_congr (fun a _ => rfl)
    have h3 : ((((ws.zip ds).filter (fun p => !p.1.isNull && !p.2.isNull))).dedup.filter (fun p => p.1 = Cell.str w)).map Prod.snd
        = (List.map (fun t => t.2.1)
      (List.filter (fun t => decide (t.1 = Cell.str w) && !t.2.1.isNull)
        (ws.zip (ds.zip qs)))).dedup := by
      rw [dedup_filter_fst]
      congr 1
      rw [List.filter_filter]
      have h4 : (ws.zip ds).filter
          (fun a => decide (a.1 = Cell.str w) && (!a.1.isNull && !a.2.isNull))
          = (ws.zip ds).filter (fun a => decide (a.1 = Cell.str w) && !a.2.isNull) := by
        apply List.filter_congr
        intro a _
        by_cases haw : a.1 = Cell.str w
        · simp [haw, Cell.isNull]
        · simp [haw]
      rw [h4, ← zip3_proj ws ds qs hl1 hl2, List.filter_map, List.map_map]
      rfl
    rw [h2] at h1
    exact h3 ▸ h1
  have htot : ∀ k ∈ (List.filter
      ((fun e => decide (e.1.1 = Cell.str w)) ∘ fun k =>
      (k, sumCells (List.map (fun t => t.2.2)
        (List.filter (fun t => decide (t.1 = k.1 ∧ t.2.1 = k.2)) (ws.zip (ds.zip qs))))))
      (groupKeys2 ws ds)),
      ((fun e => e.2) ∘ (fun k =>
      (k, sumCells (List.map (fun t => t.2.2)
        (List.filter (fun t => decide (t.1 = k.1 ∧ t.2.1 = k.2)) (ws.zip (ds.zip qs))))))) k = ((fun d => sumCells (List.map (fun t => t.2.2)
      (List.filter (fun t => decide (t.2.1 = d))
        (List.filter (fun t => decide (t.1 = Cell.str w) && !t.2.1.isNull)
          (ws.zip (ds.zip qs))))))) k.2 := by
    intro k hk
    have hkf := List.mem_filter.mp hk
    have hk1 : k.1 = Cell.str w := of_decide_eq_true hkf.2
    have hkd : k ∈ (((ws.zip ds).filter (fun p => !p.1.isNull && !p.2.isNull))).dedup := hgk.subset hkf.1
    have hkv := List.mem_filter.mp (List.mem_dedup.mp hkd)
    have hk2 : (!k.2.isNull) = true := (Bool.and_eq_true _ _ |>.mp hkv.2).2
    show sumCells _ = sumCells _
    congr 1
    rw [List.filter_filter]
    congr 1
    apply List.filter_congr
    intro t _
    rw [Bool.decide_and]
    by_cases h2 : t.2.1 = k.2
    · simp [h2, hk1, hk2]
    · simp [h2]
  rw [List.map_congr_left htot]
  rw [show List.map (fun k => ((fun d => sumCells (List.map (fun t => t.2.2)
      (List.filter (fun t => decide (t.2.1 = d))
        (List.filter (fun t => decide (t.1 = Cell.str w) && !t.2.1.isNull)
          (ws.zip (ds.zip qs))))))) k.2) (List.filter
      ((fun e => decide (e.1.1 = Cell.str w)) ∘ fun k =>
      (k, sumCells (List.map (fun t => t.2.2)
        (List.filter (fun t => decide (t.1 = k.1 ∧ t.2.1 = k.2)) (ws.zip (ds.zip qs))))))
      (groupKeys2 ws ds))
      = (((List.filter
      ((fun e => decide (e.1.1 = Cell.str w)) ∘ fun k =>
      (k, sumCells (List.map (fun t => t.2.2)
        (List.filter (fun t => decide (t.1 = k.1 ∧ t.2.1 = k.2)) (ws.zip (ds.zip qs))))))
      (groupKeys2 ws ds))).map Prod.snd).map ((fun d => sumCells (List.map (fun t => t.2.2)
      (List.filter (fun t => decide (t.2.1 = d))
        (List.filter (fun t => decide (t.1 = Cell.str w) && !t.2.1.isNull)
          (ws.zip (ds.zip qs))))))) from by rw [List.map_map]; rfl]
  have hperm := hkey.map ((fun d => sumCells (List.map (fun t => t.2.2)
      (List.filter (fun t => decide (t.2.1 = d))
        (List.filter (fun t => decide (t.1 = Cell.str w) && !t.2.1.isNull)
          (ws.zip (ds.zip qs)))))))
  have hlen : ((List.filter
      ((fun e => decide (e.1.1 = Cell.str w)) ∘ fun k =>
      (k, sumCells (List.map (fun t => t.2.2)
        (List.filter (fun t => decide (t.1 = k.1 ∧ t.2.1 = k.2)) (ws.zip (ds.zip qs))))))
      (groupKeys2 ws ds))).length = ((List.map (fun t => t.2.1)
      (List.filter (fun t => decide (t.1 = Cell.str w) && !t.2.1.isNull)
        (ws.zip (ds.zip qs)))).dedup).length := by
    simpa using hperm.length_eq
  generalize hD : (List.map (fun t => t.2.1)
      (List.filter (fun t => decide (t.1 = Cell.str w) && !t.2.1.isNull)
        (ws.zip (ds.zip qs)))).dedup = days0 at hperm hlen ⊢
  generalize hKg : (List.filter
      ((fun e => decide (e.1.1 = Cell.str w)) ∘ fun k =>
      (k, sumCells (List.map (fun t => t.2.2)
        (List.filter (fun t => decide (t.1 = k.1 ∧ t.2.1 = k.2)) (ws.zip (ds.zip qs))))))
      (groupKeys2 ws ds)) = K0 at hperm hlen ⊢
  cases days0 with
  | nil =>
    have h0 : K0.length = 0 := by simpa using hlen
    rw [if_neg (by simp [h0])]
  | cons d rest =>
    rw [if_pos (by simp [hlen])]
    rw [meanQ_perm _ _ hperm, quantileQ_perm _ _ _ hperm, hlen]

/-- **C5**: for every table, `calculate_weekday_statistics` returns exactly
the canonical Monday→Sunday weekday list filtered to the weekdays with at
least one observed calendar day — omitted, not zero-filled — and each
row's statistics are the mean (one decimal) and 90th percentile (zero
decimals) of the per-(weekday, calendar day) quantity totals, as stated by
the spec-side definition `specWeekdayRow`. -/
theorem c5_weekday_statistics_canonical (quantityCol : String) (df : DF)
    (ws ds qs : List Cell) (l : List WRow)
    (hw : df.getCol "Weekday" = some ws) (hd : df.getCol "Day" = some ds)
    (hq : df.getCol quantityCol = some qs)
    (hl1 : ds.length = ws.length) (hl2 : qs.length = ws.length)
    (h : calculate_weekday_statistics quantityCol df = .ok l) :
    l = weekdaysOrder.filterMap (specWeekdayRow ws ds qs) := by
  rw [calculate_weekday_statistics_eq quantityCol df ws ds qs hw hd hq] at h
  rw [← Except.ok.inj h]
  exact List.filterMap_congr (fun w _ => codeWeekdayRow_eq_spec ws ds qs w hl1 hl2)

/-- Witness for `c5_weekday_statistics_canonical` at the concrete derived
table `sampleDerived` (two Mondays, one Tuesday, one invalid date). -/
theorem c5_weekday_statistics_canonical_witness :
    [({ weekday := "Monday", avgUnits := "7.5", p90Units := "8",
        daysCount := 2 } : WRow),
     { weekday := "Tuesday", avgUnits := "0.0", p90Units := "0",
       daysCount := 1 }] =
      weekdaysOrder.filterMap (specWeekdayRow
        [.str "Monday", .str "Monday", .str "Tuesday", .nan, .str "Monday"]
        [.pydate ⟨2024, 10, 7⟩, .pydate ⟨2024, 10, 7⟩, .pydate ⟨2024, 10, 8⟩,
         .nat, .pydate ⟨2024, 10, 14⟩]
        [.num 5, .num 3, .nan, .num 2, .num 7]) :=
  c5_weekday_statistics_canonical "Cantidad" sampleDerived
    [.str "Monday", .str "Monday", .str "Tuesday", .nan, .str "Monday"]
    [.pydate ⟨2024, 10, 7⟩, .pydate ⟨2024, 10, 7⟩, .pydate ⟨2024, 10, 8⟩,
     .nat, .pydate ⟨2024, 10, 14⟩]
    [.num 5, .num 3, .nan, .num 2, .num 7]
    [{ weekday := "Monday", avgUnits := "7.5", p90Units := "8", daysCount := 2 },
     { weekday := "Tuesday", avgUnits := "0.0", p90Units := "0", daysCount := 1 }]
    (by decide) (by decide) (by decide) (by decide) (by decide) (by decide)

end OrdersAnalysis
